import Mathlib

/-!
Verification development for the `aur-makepkg` build orchestration script
(`run.py`).  The script resolves a set of requested Arch Linux packages into
a registry (`pkg_dict`) of package nodes (official pacman packages or
buildable sources, local or AUR), decides per node whether to rebuild given
a cached-artifact snapshot and a rebuild policy, performs the recursive
build/install walk, and renders a tree-shaped build report.

The embedding below models the collaborator boundary (pacman queries, the
PKGBUILD metadata parser's raw field values, the AUR fetch, the `makepkg`
invocation and the `pacman -U`/`-S` invocations) as an explicit read-only
`World` of functions, and threads the mutable run state (the registry, the
node store, the pacman installed-package database and the invocation logs)
explicitly.  Recursions of the script that are not structurally bounded
(the resolver and orchestrator walks over a possibly cyclic graph) take a
fuel argument and return `none` when fuel runs out or a dictionary lookup
would raise a `KeyError`; `none` models a Python run that does not complete
normally (unbounded recursion or an uncaught exception).
-/

namespace AurMakepkg

/-- `accepted_architectures` from `run.py`. -/
def acceptedArchitectures : List String := ["any", "x86_64", "i686"]

/-- Tag distinguishing `PacmanPackage` from `PackageSource` nodes
(`run.py` dispatches on `type(pkg)`). -/
inductive PkgKind where
  | pacman
  | source
deriving DecidableEq, Repr

/-- One node of `pkg_dict`: the common fields of `PackageBase` together
with the `PacmanPackage` / `PackageSource` specific fields (Python keeps
them on the instances; unused fields keep their class defaults).
Statuses use the numeric encodings of the source:
`cache_available`: 0 not available, 1 different version, 2 same version;
`installation_status`: -2 dependency failed, -1 failed, 0 not installed,
1 is installed, 2 different version installed, 3 successfully installed;
`build_status`: 0 not yet built, 1 successfully built, 2 skipped,
3 failed, 4 make dependency failed. -/
structure Package where
  kind : PkgKind
  name : String
  version : Option String := none
  architecture : Option String := none
  repository : Option String := none
  dependencies : List String := []
  license : Option String := none
  cache_available : Nat := 0
  is_make_dependency : Bool := false
  installation_status : Int := 0
  error_info : Option String := none
  -- PackageSource fields
  make_dependencies : List String := []
  explicit_build : Bool := false
  build_status : Nat := 0
  remove_dowloaded_source : Bool := false
  build_from_git : Bool := false
  split_package_names : Option (List String) := none
deriving DecidableEq, Repr

/-- `pacman.get_info` result for an official-repository package
(the fields `run.py` reads).  `depends` stands for
`pkg_info['Depends On'].split(' ')`, already split by the collaborator. -/
structure OffInfo where
  version : String
  architecture : String
  repoField : Option String
  depends : List String
  licenses : String
deriving DecidableEq, Repr

/-- The raw variable values the PKGBUILD metadata collaborator extracts
from a recipe (`_parse_from_string` results).  `pkgname` carries the
produced package names; when `pkgbase` is present these are the split
names after the shell-variable substitution of lines 371-374 (that
substitution is part of the collaborator here).  `license` is the value
after the list-head extraction of lines 396-397.  A `none` field models a
variable absent from the PKGBUILD (Python `None`). -/
structure RawRecipe where
  pkgbase : Option String
  pkgname : List String
  pkgver : Option String
  pkgrel : Option String
  arch : Option (List String)
  license : Option String
  depends : List String
  makedepends : List String
deriving DecidableEq, Repr

/-- The read-only collaborator context of one run: the official-repository
snapshot (`packages_in_offical_repositories` + `pacman.get_info`), the
artifact-cache listing snapshot (`packages_in_cache`), the set of local
source directories, the recipe parser's raw output per source, the AUR
lookup, the `package-query` provider resolution, and the success behaviour
of the external `makepkg` / `pacman -U` / `pacman -S` invocations.
`gitVersion` is the version re-read after a successful `-git` build. -/
structure World where
  official : String → Option OffInfo
  cacheFiles : List String
  localSources : List String
  localRecipe : String → Option RawRecipe
  aurRecipe : String → Option RawRecipe
  providerOf : String → Option String
  makepkgOk : String → Bool
  pacmanUOk : String → Bool
  pacmanSOk : String → Bool
  gitVersion : String → String

/-- Association-list lookup (first binding wins; insertion keeps keys
unique, matching a Python `dict`). -/
def lookupAssoc {α : Type} (l : List (String × α)) (k : String) : Option α :=
  match l with
  | [] => none
  | (k', v) :: t => if k' = k then some v else lookupAssoc t k

/-- Association-list update, modelling `d[k] = v` on a Python `dict`:
replace the existing binding or append a fresh one. -/
def setAssoc {α : Type} (l : List (String × α)) (k : String) (v : α) :
    List (String × α) :=
  match l with
  | [] => [(k, v)]
  | (k', v') :: t =>
    if k' = k then (k, v) :: t else (k', v') :: setAssoc t k v

/-- The mutable state of one run: `registry` is `pkg_dict` (name to index
into `store`; aliased names map to the same index, modelling shared object
references), `store` holds the node objects, `installedDB` is the pacman
installed-package database (name to version), `builtLog` records each
`makepkg` invocation (by node index, in order) and `installLog` records
each `pacman -U`/`-S` install invocation (by package name, in order). -/
structure State where
  registry : List (String × Nat) := []
  store : List Package := []
  installedDB : List (String × String) := []
  builtLog : List Nat := []
  installLog : List String := []
deriving DecidableEq, Repr

def getPkg (st : State) (i : Nat) : Option Package := st.store.get? i

def setPkg (st : State) (i : Nat) (p : Package) : State :=
  { st with store := st.store.set i p }

/-- `'{0}-{1}-{2}.pkg.tar.xz'.format(name, version, architecture)`;
Python renders a `None` field as the string `"None"`. -/
def cacheFileName (name : String) (version architecture : Option String) :
    String :=
  name ++ "-" ++ version.getD "None" ++ "-" ++ architecture.getD "None"
    ++ ".pkg.tar.xz"

/-- Python `\S`: any non-whitespace character. -/
def nonSpace (c : Char) : Bool := !c.isWhitespace

/-- Matches the tail `<any>pkg<any>tar<any>xz` of the pattern
`name-(\S+)-arch.pkg.tar.xz` (each `.` is an unescaped regex dot) as a
prefix of `s`, the rest of `s` being unconstrained (`re.search` has no
anchor). -/
def dotSuffixMatch (s : List Char) : Bool :=
  match s with
  | _ :: rest =>
    ("pkg".toList.isPrefixOf rest) &&
      (match rest.drop 3 with
       | _ :: rest2 =>
         ("tar".toList.isPrefixOf rest2) &&
           (match rest2.drop 3 with
            | _ :: rest3 => "xz".toList.isPrefixOf rest3
            | [] => false)
       | [] => false)
  | [] => false

/-- Matches `-` ++ `arch` ++ `<any>pkg<any>tar<any>xz` as a prefix of `s`. -/
def dashArchMatch (arch : String) (s : List Char) : Bool :=
  match s with
  | '-' :: rest =>
    (arch.toList.isPrefixOf rest) && dotSuffixMatch (rest.drop arch.length)
  | _ => false

/-- Consumes one or more non-whitespace characters (`(\S+)`) from `s` and
then requires `dashArchMatch` on the remainder (some split choice must
succeed; regex backtracking gives exactly this existential). -/
def midScan (arch : String) (s : List Char) : Bool :=
  match s with
  | [] => false
  | c :: rest =>
    nonSpace c && (dashArchMatch arch rest || midScan arch rest)

/-- The pattern `name-(\S+)-arch.pkg.tar.xz` matched at the start of `s`. -/
def diffPatternAt (name arch : String) (s : List Char) : Bool :=
  (name.toList.isPrefixOf s) &&
    (match s.drop name.length with
     | '-' :: rest => midScan arch rest
     | _ => false)

/-- `re.compile(r'{0}-(\S+)-{1}.pkg.tar.xz'.format(name, arch)).search(f)`:
unanchored search, so the pattern may match at any position of `f`.  The
model assumes `name` and `arch` contain no regex metacharacters (true for
package names and the accepted architectures). -/
def diffPatternSearch (name arch : String) (s : List Char) : Bool :=
  match s with
  | [] => diffPatternAt name arch []
  | _ :: rest => diffPatternAt name arch s || diffPatternSearch name arch rest

/-- `PackageBase._check_if_cache_is_available` (run.py lines 151-169):
2 if the exact `name-version-architecture.pkg.tar.xz` file is in the cache
listing, else 1 if the unanchored unescaped regex
`name-(\S+)-architecture.pkg.tar.xz` matches some cached file name,
else 0. -/
def checkCacheAvailable (cache : List String) (name : String)
    (version architecture : Option String) : Nat :=
  if cacheFileName name version architecture ∈ cache then 2
  else if cache.any (fun f =>
      diffPatternSearch name (architecture.getD "None") f.toList) then 1
  else 0

/-- `PackageBase.get_installation_status` (run.py lines 171-180): 1 if the
installed version equals the node's version, 2 if a different version is
installed, 0 if not installed. -/
def installationStatusOf (db : List (String × String)) (p : Package) : Int :=
  match lookupAssoc db p.name with
  | some v => if p.version = some v then 1 else 2
  | none => 0

def refreshInstallationStatus (db : List (String × String)) (p : Package) :
    Package :=
  { p with installation_status := installationStatusOf db p }

/-- Python `s.endswith(t)`, computed on character lists (the library's
`String.endsWith` does not reduce definitionally). -/
def strEndsWith (s t : String) : Bool := t.toList.isSuffixOf s.toList

/-- Store an exception message on a node (`self.error_info = e`). -/
def setError (p : Package) (m : String) : Package :=
  { p with error_info := some m }

/-- `re.sub(r'(.+?)(<|<=|>|>=){1}.*?$', r'\1', s)`: keep the prefix before
the first `<` or `>`, provided that prefix is nonempty; otherwise the
string is unchanged. -/
def stripVersionConstraint (s : String) : String :=
  match (s.toList.drop 1).findIdx? (fun c => c = '<' || c = '>') with
  | some i => ⟨s.toList.take (i + 1)⟩
  | none => s

/-- `PackageSource._get_dependencies_from_alias` (run.py lines 335-357):
strip a version range, then ask `package-query` for the providing package
(collaborator `providerOf`), falling back to the stripped alias itself. -/
def dependenciesFromAlias (w : World) (names : List String) : List String :=
  names.map (fun a =>
    let striped := stripVersionConstraint a
    (w.providerOf striped).getD striped)

/-- `PackageSource._parse_pkgbuild_file` (run.py lines 359-417) applied to
the raw field values, updating the node in place and stopping at the first
raised error (the constructor's `try` block), so fields assigned before
the failure point keep their new values. -/
def parsePkgbuild (w : World) (p : Package) (raw : RawRecipe) : Package :=
  -- package name: pkgbase/split handling (lines 366-376)
  let p :=
    match raw.pkgbase with
    | some b => { p with name := b, split_package_names := some raw.pkgname }
    | none =>
      match raw.pkgname with
      | n :: _ => { p with name := n }
      | [] => setError { p with name := "" } "pkgname missing in PKGBUILD"
  if p.error_info.isSome then p else
  let p := { p with build_from_git := strEndsWith p.name "-git" }
  -- version combined with release (lines 380-382); a missing field makes
  -- the string concatenation raise
  match raw.pkgver, raw.pkgrel with
  | some ver, some rel =>
    let p := { p with version := some (ver ++ "-" ++ rel) }
    -- architecture (lines 385-392)
    match raw.arch with
    | none => setError p "arch missing in PKGBUILD"
    | some archs =>
      match acceptedArchitectures.find? (fun a => a ∈ archs) with
      | none =>
        setError p ("Architecture of the package " ++ p.name ++ " is not supported")
      | some a =>
        let p := { p with architecture := some a }
        -- license (lines 395-397)
        let p := { p with license := raw.license }
        -- mandatory-variable check (lines 400-406)
        if p.name = "" || ver = "" || rel = "" || raw.license = none
            || raw.license = some "" then
          setError p ("One or more mandatory variables in the package " ++ p.name ++ " is missing")
        else
          -- dependencies and make dependencies (lines 409-414)
          let p := { p with dependencies := dependenciesFromAlias w raw.depends }
          let p := { p with make_dependencies := dependenciesFromAlias w raw.makedepends }
          { p with repository := some "local" }
  | _, _ => setError p "pkgver or pkgrel missing"

/-- Where a `PackageSource` gets its recipe from: a local source directory
or the AUR download. -/
inductive SourceOrigin where
  | localDir (dir : String)
  | aur
deriving DecidableEq, Repr

/-- `PackageSource.__init__` (run.py lines 289-307): classify, fetch the
recipe, parse it, then compute cache availability and installation status;
any failure is caught and stored in `error_info`, skipping the remaining
steps. -/
def mkPackageSource (w : World) (db : List (String × String))
    (origin : SourceOrigin) (reqName : String) (removeDl : Bool) : Package :=
  let p : Package := { kind := .source, name := reqName,
                       remove_dowloaded_source := removeDl }
  let recipe? :=
    match origin with
    | .localDir dir => (w.localRecipe dir, some "local")
    | .aur => (w.aurRecipe reqName, some "aur")
  let p := { p with repository := recipe?.2 }
  match recipe?.1 with
  | none =>
    setError p ("No package with the name " ++ reqName ++ " exists in the AUR")
  | some raw =>
    let p := parsePkgbuild w p raw
    if p.error_info.isSome then p
    else
      let p := { p with cache_available := checkCacheAvailable w.cacheFiles p.name p.version p.architecture }
      refreshInstallationStatus db p

/-- `PacmanPackage.__init__` + `_get_package_info` (run.py lines 191-227):
copy the pacman metadata, compute cache availability and installation
status; failures are stored in `error_info`. -/
def mkPacmanPackage (w : World) (db : List (String × String))
    (name : String) : Package :=
  let p : Package := { kind := .pacman, name := name }
  match w.official name with
  | none =>
    setError p ("No package with the name " ++ name ++ " exists in the official repositories")
  | some info =>
    let repo : Option String :=
      match info.repoField with
      | some r =>
        if r = "extra" || r = "core" || r = "community" || r = "multilib"
        then some r else none
      | none => some "extra"
    let p := { p with version := some info.version, architecture := some info.architecture }
    let p := { p with repository := repo, dependencies := info.depends }
    let p := { p with license := some info.licenses }
    let p := { p with cache_available := checkCacheAvailable w.cacheFiles p.name p.version p.architecture }
    refreshInstallationStatus db p

/-- `PacmanPackage.install` (run.py lines 229-245): skipped when the same
version is already installed (status 1) or it was installed by this run
(status 3); otherwise invoke `pacman -S` — on success the status becomes 3
and the pacman database gains the package, on failure the status becomes
-1 and the error is recorded. -/
def pacmanInstall (w : World) (st : State) (i : Nat) : State :=
  match getPkg st i with
  | none => st
  | some p =>
    if p.installation_status = 1 || p.installation_status = 3 then st
    else
      let st := { st with installLog := st.installLog ++ [p.name] }
      if w.pacmanSOk p.name then
        let st := setPkg st i { p with installation_status := 3 }
        { st with installedDB := setAssoc st.installedDB p.name (p.version.getD "None") }
      else
        setPkg st i (setError { p with installation_status := -1 } ("Failed to install package " ++ p.name))

/-- The split-name loop body of `PackageSource.install`
(run.py lines 546-560): each name is installed by its own `pacman -U`
invocation; a success sets `installation_status = 3` and updates the
pacman database, a failure sets `installation_status = -1`, records the
error and returns immediately, aborting the remaining names. -/
def sourceInstallLoop (w : World) (version : Option String) (i : Nat) :
    List String → State → State
  | [], st => st
  | n :: rest, st =>
    match getPkg st i with
    | none => st
    | some p =>
      let st := { st with installLog := st.installLog ++ [n] }
      if w.pacmanUOk n then
        let st := setPkg st i { p with installation_status := 3 }
        let st := { st with installedDB := setAssoc st.installedDB n (version.getD "None") }
        sourceInstallLoop w version i rest st
      else
        setPkg st i (setError { p with installation_status := -1 } ("Failed to install package " ++ n))

/-- `PackageSource.install` (run.py lines 537-560): only acts when the
package is not already installed at this version (status not 1/3) and the
build succeeded or was skipped (`build_status` 1 or 2); the installed
names are the split names when present and nonempty (Python truthiness of
the list), else the node name. -/
def sourceInstall (w : World) (st : State) (i : Nat) : State :=
  match getPkg st i with
  | none => st
  | some p =>
    if !(p.installation_status = 1 || p.installation_status = 3)
        && (p.build_status = 1 || p.build_status = 2) then
      let names :=
        match p.split_package_names with
        | some (n :: rest) => n :: rest
        | _ => [p.name]
      sourceInstallLoop w p.version i names st
    else st

/-- `PackageSource.makepkg` (run.py lines 470-516): invoke the external
`makepkg` (recorded in `builtLog`); on failure record the error and report
`false`; on success re-read the version for `-git` sources, move the
artifacts into the pacman cache (the cache-listing snapshot used for
`cache_available` is not refreshed by the script, so no modelled state
changes) and, for a make dependency, call `self.install()` — which at this
point still sees `build_status = 0`.  The filesystem staging
(`_copy_source_to_build_dir`, `chown`) is not part of the model. -/
def doMakepkg (w : World) (st : State) (i : Nat) : State × Bool :=
  match getPkg st i with
  | none => (st, false)
  | some p =>
    let st := { st with builtLog := st.builtLog ++ [i] }
    if !w.makepkgOk p.name then
      (setPkg st i (setError p ("Failed to build package " ++ p.name)), false)
    else
      let p := if p.build_from_git then { p with version := some (w.gitVersion p.name) } else p
      let st := setPkg st i p
      let st := if p.is_make_dependency then sourceInstall w st i else st
      (st, true)

/-- Helper for the three build branches of `build_package_recursive`:
run `makepkg` and set `build_status` to 1 on success, 3 on failure. -/
def buildAndRecord (w : World) (st : State) (i : Nat) : State :=
  let r := doMakepkg w st i
  match getPkg r.1 i with
  | none => r.1
  | some p => setPkg r.1 i { p with build_status := if r.2 then 1 else 3 }

/-- Set the `build_status` field of node `i`. -/
def setBuildStatus (st : State) (i : Nat) (b : Nat) : State :=
  match getPkg st i with
  | none => st
  | some p => setPkg st i { p with build_status := b }

/-- Result of the dependency loop of `build_package_recursive`
(run.py lines 739-749): either the loop returned from the whole function
(a dependency carried an error: `build_status = 4`), or it completed with
the final `dependency_changed` flag. -/
inductive DepLoopResult where
  | returned (st : State)
  | completed (st : State) (changed : Bool)
deriving DecidableEq, Repr

/-- The dependency loop of `build_package_recursive` (run.py lines
739-749), parametrised by the recursive call `recur`.  For each dependency
name: look it up (`pkg_dict[dependency]` — a missing key is a `KeyError`
that aborts the run, modelled as `none`), recurse, then re-read the shared
node object; an error on it sets the dependent's `build_status = 4` and
returns, a source dependency with `build_status == 1` sets
`dependency_changed`. -/
def depLoop (recur : String → State → Option State) (i : Nat) :
    List String → Bool → State → Option DepLoopResult
  | [], changed, st => some (.completed st changed)
  | dep :: rest, changed, st =>
    match lookupAssoc st.registry dep with
    | none => none
    | some depIdx =>
      match recur dep st with
      | none => none
      | some st1 =>
        match getPkg st1 depIdx with
        | none => none
        | some q =>
          if q.error_info.isSome then some (.returned (setBuildStatus st1 i 4))
          else
            depLoop recur i rest (changed || (q.kind = .source && q.build_status = 1)) st1

/-- `build_package_recursive` (run.py lines 702-788).  `rebuild` is the
policy (0/1/2), `installAll` is `install_all_dependencies`.  Early
returns: a node with an error, a source node already processed
(`build_status != 0`) and a pacman node already processed
(`installation_status < 0 or == 3`).  A pacman node is installed when it
is a make dependency or `installAll` holds.  For a source node the
dependency loop runs first; then `get_installation_status()` refreshes the
installation status, the rebuild decision fires `makepkg` (forced by
`dependency_changed`, else according to the policy; a policy other than
0/1/2 takes no branch and leaves `build_status = 0`), and finally the node
is installed when `installAll` holds.  `buildVisit` is the body of one
call, with the recursive call abstracted as `recur`; the fuelled fixpoint
`buildPackageRecursive` below ties the knot (spelled with `Nat.rec` so
that concrete runs reduce definitionally). -/
def buildVisit (w : World) (rebuild : Nat) (installAll : Bool)
    (recur : String → State → Option State) (pkgName : String) (st : State) :
    Option State :=
  match lookupAssoc st.registry pkgName with
  | none => none
  | some i =>
    match getPkg st i with
    | none => none
    | some p =>
      if p.error_info.isSome then some st
      else if p.kind = .source && p.build_status ≠ 0 then some st
      else if p.kind = .pacman then
        if p.installation_status < 0 || p.installation_status = 3 then some st
        else if p.is_make_dependency || installAll then some (pacmanInstall w st i)
        else some st
      else
        match depLoop recur i (p.dependencies ++ p.make_dependencies) false st with
        | none => none
        | some (.returned st') => some st'
        | some (.completed st1 changed) =>
          let st2 :=
            match getPkg st1 i with
            | none => st1
            | some q => setPkg st1 i (refreshInstallationStatus st1.installedDB q)
          let st3 :=
            match getPkg st2 i with
            | none => st2
            | some q =>
              if changed then buildAndRecord w st2 i
              else if rebuild = 0 then
                if q.cache_available < 2 then buildAndRecord w st2 i
                else setBuildStatus st2 i 2
              else if rebuild = 1 then
                if q.cache_available < 2 || q.explicit_build then buildAndRecord w st2 i
                else setBuildStatus st2 i 2
              else if rebuild = 2 then buildAndRecord w st2 i
              else st2
          some (if installAll then sourceInstall w st3 i else st3)

def buildPackageRecursive (w : World) (rebuild : Nat) (installAll : Bool)
    (fuel : Nat) : String → State → Option State :=
  Nat.rec (motive := fun _ => String → State → Option State)
    (fun _ _ => none)
    (fun _ ih => buildVisit w rebuild installAll ih)
    fuel

/-- Register a node under a name and return its index
(`pkg_dict[name] = pkg` for a fresh node appended to the store). -/
def addPackage (st : State) (name : String) (p : Package) : State × Nat :=
  let i := st.store.length
  ({ st with registry := setAssoc st.registry name i, store := st.store ++ [p] }, i)

/-- Add an alias binding for an existing node (`pkg_dict[name] = pkg`). -/
def addAlias (st : State) (name : String) (i : Nat) : State :=
  { st with registry := setAssoc st.registry name i }

/-- Sequential resolution of a dependency list, parametrised by the
recursive call (the two `for` loops of `get_package_recursive`, lines
661-674 and 686-699). -/
def resolveList (recur : String → Bool → Bool → State → Option State)
    (isMakeDep : Bool) : List String → State → Option State
  | [], st => some st
  | n :: rest, st =>
    match recur n false isMakeDep st with
    | none => none
    | some st1 => resolveList recur isMakeDep rest st1

/-- `get_package_recursive` (run.py lines 618-699).  Memoised on the
registry; classifies the name as official pacman package, local source or
AUR source.  For a source, when the parsed package name is already
registered the call returns without registering anything (lines 653-654 /
679-680); otherwise both the requested and the parsed name are bound to
the same node.  Line 655 sets `explicit_build` from the caller and line
656 immediately overwrites it with `is_make_dependency` — modelled
verbatim.  Dependencies recurse with `is_make_dependency` propagated,
make dependencies with `True`.  `resolveVisit` is the body of one call,
with the recursive call abstracted as `recur`; the fuelled fixpoint
`getPackageRecursive` below ties the knot. -/
def resolveVisit (w : World) (removeDl : Bool)
    (recur : String → Bool → Bool → State → Option State)
    (pkgName : String) (explicitBuild isMakeDep : Bool) (st : State) :
    Option State :=
  if (lookupAssoc st.registry pkgName).isSome then some st
  else if (w.official pkgName).isSome then
    let pcm := mkPacmanPackage w st.installedDB pkgName
    let pcm := { pcm with is_make_dependency := isMakeDep }
    some (addPackage st pkgName pcm).1
  else if pkgName ∈ w.localSources then
    let lcl := mkPackageSource w st.installedDB (.localDir pkgName) pkgName removeDl
    if (lookupAssoc st.registry lcl.name).isSome then some st
    else
      let lcl := { lcl with explicit_build := explicitBuild }
      let lcl := { lcl with explicit_build := isMakeDep }
      let r := addPackage st pkgName lcl
      let st1 := addAlias r.1 lcl.name r.2
      if lcl.error_info.isSome then some st1
      else
        match resolveList recur (if isMakeDep then true else false) lcl.dependencies st1 with
        | none => none
        | some st2 => resolveList recur true lcl.make_dependencies st2
  else
    let aur := mkPackageSource w st.installedDB .aur pkgName removeDl
    if (lookupAssoc st.registry aur.name).isSome then some st
    else
      let aur := { aur with explicit_build := explicitBuild }
      let r := addPackage st pkgName aur
      let st1 := addAlias r.1 aur.name r.2
      if aur.error_info.isSome then some st1
      else
        match resolveList recur (if isMakeDep then true else false) aur.dependencies st1 with
        | none => none
        | some st2 => resolveList recur true aur.make_dependencies st2

def getPackageRecursive (w : World) (removeDl : Bool) (fuel : Nat) :
    String → Bool → Bool → State → Option State :=
  Nat.rec (motive := fun _ => String → Bool → Bool → State → Option State)
    (fun _ _ _ _ => none)
    (fun _ ih => resolveVisit w removeDl ih)
    fuel

/-- One iteration of the main loop of `main` (run.py lines 1000-1015):
resolve a requested name (explicit, not a make dependency) and, when it
ended up in the registry, build it. -/
def runTarget (w : World) (removeDl : Bool) (rebuild : Nat)
    (installAll : Bool) (fuel : Nat) (t : String) (st : State) :
    Option State :=
  match getPackageRecursive w removeDl fuel t true false st with
  | none => none
  | some st1 =>
    if (lookupAssoc st1.registry t).isSome then
      buildPackageRecursive w rebuild installAll fuel t st1
    else some st1

/-- The whole get/build phase of `main` over the requested names. -/
def runTargets (w : World) (removeDl : Bool) (rebuild : Nat)
    (installAll : Bool) (fuel : Nat) : List String → State → Option State
  | [], st => some st
  | t :: rest, st =>
    match runTarget w removeDl rebuild installAll fuel t st with
    | none => none
    | some st1 => runTargets w removeDl rebuild installAll fuel rest st1

/-- Python `str(error_info)`: the message, or `"None"` when no error is
set. -/
def pyStr (e : Option String) : String := e.getD "None"

/-- Python `msg.splitlines()` for newline-separated text, computed on
character lists (the library's `String.splitOn` does not reduce
definitionally). -/
def splitLinesAux : List Char → List Char → List String
  | [], acc => [⟨acc.reverse⟩]
  | '\n' :: rest, acc => (⟨acc.reverse⟩ : String) :: splitLinesAux rest []
  | c :: rest, acc => splitLinesAux rest (c :: acc)

def pySplitLines (s : String) : List String := splitLinesAux s.toList []

/-- `format_log` (run.py lines 791-811): indent continuation lines of a
multi-line message with `pfx ++ "    "` and render
`"name version: msg"` (version omitted when absent). -/
def formatLog (p : Package) (msg : String) (pfx : String) : String :=
  let msgLines := pySplitLines msg
  let msg :=
    if msgLines.length > 1 then
      String.intercalate "\n" (msgLines.headI :: (msgLines.tail.map (fun l => pfx ++ "    " ++ l)))
    else msg
  match p.version with
  | some v => p.name ++ " " ++ v ++ ": " ++ msg
  | none => p.name ++ ": " ++ msg

/-- The sibling loop of `print_build_log_recursive` (run.py lines
831-880), parametrised by the recursive call.  `success` and `log` are the
loop variables.  Per iteration the prefixes are chosen by root/last-sibling
position (`enumerate_package_names` yields `anchor == 1` exactly on the
last element).  A pacman node renders by installation status (status 2
renders nothing); a source node first recurses into its dependency list
when nonempty — *reassigning* `success` to the subtree's result — and then
renders by the not-success / error / build-status cascade (build status 0
renders nothing).  The node line precedes its dependency block. -/
def logLoop (recur : List String → String → Option (Bool × List String))
    (st : State) (pfx : String) (isRoot : Bool) :
    List String → Bool → List String → Option (Bool × List String)
  | [], success, log => some (success, log)
  | name :: rest, success, log =>
    let isLast := rest.isEmpty
    let lp := if isRoot then "" else if isLast then pfx ++ "└── " else pfx ++ "├── "
    let ip := if isRoot then "" else if isLast then pfx ++ "    " else pfx ++ "|   "
    match lookupAssoc st.registry name with
    | none => none
    | some i =>
      match getPkg st i with
      | none => none
      | some p =>
        if p.kind = .pacman then
          let r : Bool × List String :=
            if p.installation_status < 0 then
              (false, [lp ++ formatLog p ("Failed to install: " ++ pyStr p.error_info) ip])
            else if p.installation_status = 0 then (success, [lp ++ formatLog p "Not installed" ""])
            else if p.installation_status = 1 then (success, [lp ++ formatLog p "Skipped install" ""])
            else if p.installation_status = 3 then
              (success, [lp ++ formatLog p "Successfully installed" ""])
            else (success, [])
          logLoop recur st pfx isRoot rest r.1 (log ++ r.2)
        else
          let deps := p.dependencies ++ p.make_dependencies
          match (if deps.length > 0 then recur deps ip else some (success, [])) with
          | none => none
          | some (success1, logDep) =>
            let r : Bool × List String :=
              if !success1 then
                (success1, [lp ++ formatLog p ("Dependency Failed: " ++ pyStr p.error_info) ip])
              else if p.error_info.isSome then
                (false, [lp ++ formatLog p ("Failed: " ++ pyStr p.error_info) ip])
              else if p.build_status = 1 then (success1, [lp ++ formatLog p "Successfully build" ""])
              else if p.build_status = 2 then (success1, [lp ++ formatLog p "Skipped" ""])
              else if p.build_status = 3 then (false, [lp ++ formatLog p "Failed" ""])
              else if p.build_status = 4 then (false, [lp ++ formatLog p "Dependency Failed" ""])
              else (success1, [])
            logLoop recur st pfx isRoot rest r.1 (log ++ r.2 ++ logDep)

/-- `print_build_log_recursive` (run.py lines 814-882), with fuel for the
recursion depth over a possibly cyclic graph. -/
def printBuildLogRecursive (st : State) (fuel : Nat) :
    List String → String → Bool → Option (Bool × List String) :=
  Nat.rec (motive := fun _ => List String → String → Bool → Option (Bool × List String))
    (fun _ _ _ => none)
    (fun _ ih pkgNames pfx isRoot =>
      logLoop (fun names ip => ih names ip false) st pfx isRoot pkgNames true [])
    fuel

/-- `print_build_log` (run.py lines 885-899): render one requested
package's tree; the returned flag selects the success/error colour for
every line. -/
def printBuildLog (st : State) (fuel : Nat) (t : String) :
    Option (Bool × List String) :=
  printBuildLogRecursive st fuel [t] "" true

/-- The report phase of `main` (run.py lines 1018-1021): one rendered tree
per requested name present in the registry. -/
def reportAll (st : State) (fuel : Nat) :
    List String → Option (List (Bool × List String))
  | [] => some []
  | t :: rest =>
    if (lookupAssoc st.registry t).isSome then
      match printBuildLog st fuel t with
      | none => none
      | some r =>
        match reportAll st fuel rest with
        | none => none
        | some rs => some (r :: rs)
    else reportAll st fuel rest

/-! ### Concrete scenario worlds used to settle the claims -/

/-- A world with no packages anywhere and all external commands
succeeding. -/
def emptyWorld : World where
  official := fun _ => none
  cacheFiles := []
  localSources := []
  localRecipe := fun _ => none
  aurRecipe := fun _ => none
  providerOf := fun _ => none
  makepkgOk := fun _ => true
  pacmanUOk := fun _ => true
  pacmanSOk := fun _ => true
  gitVersion := fun _ => "2.0-1"

/-- A minimal valid PKGBUILD for package `n`, version 1.0-1, x86_64. -/
def recipeNoDeps (n : String) : RawRecipe where
  pkgbase := none
  pkgname := [n]
  pkgver := some "1.0"
  pkgrel := some "1"
  arch := some ["x86_64"]
  license := some "MIT"
  depends := []
  makedepends := []

/-- The node registered under `n` in the result of a run. -/
def nodeOf (st? : Option State) (n : String) : Option Package :=
  st?.bind fun st => (lookupAssoc st.registry n).bind (getPkg st)

/-- C1 scenario: local source `bar` build-depends on local source
`bar-tool`; nothing is cached, nothing else exists. -/
def buildOnlyDepWorld : World :=
  { emptyWorld with
      localSources := ["bar", "bar-tool"],
      localRecipe := fun d =>
        if d = "bar" then some { recipeNoDeps "bar" with makedepends := ["bar-tool"] }
        else if d = "bar-tool" then some (recipeNoDeps "bar-tool")
        else none }

def buildOnlyDepRun : Option State :=
  runTargets buildOnlyDepWorld false 0 false 8 ["bar"] {}

/-- C3 scenario: local source `bar` requested on the command line, with
its exact artifact already in the cache; rebuild policy 1. -/
def explicitCachedWorld : World :=
  { emptyWorld with
      localSources := ["bar"],
      localRecipe := fun d => if d = "bar" then some (recipeNoDeps "bar") else none,
      cacheFiles := ["bar-1.0-1-x86_64.pkg.tar.xz"] }

def explicitCachedRun : Option State :=
  runTargets explicitCachedWorld false 1 false 8 ["bar"] {}

/-- C2 counterexample scenario: `x` depends on `d1` (a local source that
gets rebuilt) and `d2` (found nowhere, so its AUR lookup fails). -/
def rebuiltThenErrorWorld : World :=
  { emptyWorld with
      localSources := ["x", "d1"],
      localRecipe := fun d =>
        if d = "x" then some { recipeNoDeps "x" with depends := ["d1", "d2"] }
        else if d = "d1" then some (recipeNoDeps "d1")
        else none }

def rebuiltThenErrorRun : Option State :=
  runTargets rebuiltThenErrorWorld false 0 false 8 ["x"] {}

/-- C5 counterexample scenario: the local source directory `foo-a` holds a
split recipe with base name `foo` producing `foo-a` and `foo-b`. -/
def splitWorld : World :=
  { emptyWorld with
      localSources := ["foo-a"],
      localRecipe := fun d =>
        if d = "foo-a" then
          some { recipeNoDeps "foo-a" with pkgbase := some "foo", pkgname := ["foo-a", "foo-b"] }
        else none }

def splitResolveRun : Option State :=
  getPackageRecursive splitWorld false 8 "foo-a" true false {}

/-- Second C5 scenario: two local split recipes with the same base name —
after `foo-a` registers base `foo`, resolving `foo-x` (whose recipe also
declares `pkgbase = foo`) hits the early return of run.py lines 653-654. -/
def splitWorld2 : World :=
  { emptyWorld with
      localSources := ["foo-a", "foo-x"],
      localRecipe := fun d =>
        if d = "foo-a" then
          some { recipeNoDeps "foo-a" with pkgbase := some "foo", pkgname := ["foo-a", "foo-b"] }
        else if d = "foo-x" then
          some { recipeNoDeps "foo-x" with pkgbase := some "foo", pkgname := ["foo-x", "foo-b"] }
        else none }

/-- The state after resolving `foo-a` in `splitWorld2` (base name `foo`
registered). -/
def split2Mid : State := (getPackageRecursive splitWorld2 false 8 "foo-a" true false {}).getD {}

/-- C6 counterexample scenario: official package `dep` at version 2.0-1
while version 1.0-1 is installed, requested with
`install_all_dependencies`. -/
def diffVersionWorld : World :=
  { emptyWorld with
      official := fun n =>
        if n = "dep" then
          some { version := "2.0-1", architecture := "x86_64", repoField := some "extra", depends := [], licenses := "GPL" }
        else none }

def diffVersionState : State := { installedDB := [("dep", "1.0-1")] }

def diffVersionResolve : Option State :=
  getPackageRecursive diffVersionWorld false 8 "dep" true false diffVersionState

def diffVersionBuild : Option State :=
  diffVersionResolve.bind (buildPackageRecursive diffVersionWorld 0 true 8 "dep")

/-- C7 scenario family: two independent local targets whose builds succeed
or fail according to `ok1` / `ok2`. -/
def indepWorld (ok1 ok2 : Bool) : World :=
  { emptyWorld with
      localSources := ["p1", "p2"],
      localRecipe := fun d =>
        if d = "p1" then some (recipeNoDeps "p1")
        else if d = "p2" then some (recipeNoDeps "p2")
        else none,
      makepkgOk := fun n => if n = "p1" then ok1 else if n = "p2" then ok2 else true }

def indepRun (ok1 ok2 : Bool) : Option State :=
  runTargets (indepWorld ok1 ok2) false 0 false 8 ["p1", "p2"] {}

def indepReport (ok1 ok2 : Bool) : Option (List (Bool × List String)) :=
  (indepRun ok1 ok2).bind fun st => reportAll st 8 ["p1", "p2"]

/-- C8 counterexample scenario: `p` depends on `s1` and `s2`; `s1` depends
on `x` (AUR lookup fails), `s2` depends on the official package `y`. -/
def erasedFailureWorld : World :=
  { emptyWorld with
      localSources := ["p", "s1", "s2"],
      localRecipe := fun d =>
        if d = "p" then some { recipeNoDeps "p" with depends := ["s1", "s2"] }
        else if d = "s1" then some { recipeNoDeps "s1" with depends := ["x"] }
        else if d = "s2" then some { recipeNoDeps "s2" with depends := ["y"] }
        else none,
      official := fun n =>
        if n = "y" then
          some { version := "2.0-1", architecture := "x86_64", repoField := some "core", depends := [], licenses := "GPL" }
        else none }

def erasedFailureRun : Option State :=
  runTargets erasedFailureWorld false 0 false 8 ["p"] {}

/-- C8 amended scenario: the three-level chain `a → b → c` where the build
of `c` fails. -/
def chainWorld : World :=
  { emptyWorld with
      localSources := ["a", "b", "c"],
      localRecipe := fun d =>
        if d = "a" then some { recipeNoDeps "a" with depends := ["b"] }
        else if d = "b" then some { recipeNoDeps "b" with depends := ["c"] }
        else if d = "c" then some (recipeNoDeps "c")
        else none,
      makepkgOk := fun n => n ≠ "c" }

def chainRun : Option State :=
  runTargets chainWorld false 0 false 8 ["a"] {}

/-- C9 counterexample scenario: installing a freshly built split package
whose first split name fails to install. -/
def splitInstallWorld : World := { emptyWorld with pacmanUOk := fun n => n ≠ "liba" }

def splitInstallPkg : Package :=
  { kind := .source, name := "base", version := some "1.0-1", architecture := some "x86_64",
    build_status := 1, split_package_names := some ["liba", "libb"] }

def splitInstallState : State := { registry := [("base", 0)], store := [splitInstallPkg] }

/-- The local-source node as constructed for requested name `n` (the
parsed name can differ from `n` for a split recipe). -/
def localNode (w : World) (st : State) (n : String) (removeDl : Bool) : Package :=
  mkPackageSource w st.installedDB (.localDir n) n removeDl

/-- C4 scenario: the source node `x` (node 0) depends on `d` (node 1),
whose node already carries an error from its own processing. -/
def depErrState : State :=
  { registry := [("x", 0), ("d", 1)],
    store := [{ kind := .source, name := "x", dependencies := ["d"] },
              { kind := .source, name := "d", error_info := some "resolution failed" }] }

def depErrRun : Option State := buildPackageRecursive emptyWorld 0 false 2 "x" depErrState

def depErrFinal : State := depErrRun.getD {}

/-- C2 scenario: `x` (node 0) has a current cached artifact
(`cache_available = 2`) but depends on the uncached local source `d`
(node 1), which the run rebuilds. -/
def forceState : State :=
  { registry := [("x", 0), ("d", 1)],
    store := [{ kind := .source, name := "x", dependencies := ["d"], cache_available := 2 },
              { kind := .source, name := "d" }] }

def forceRun : Option State := buildPackageRecursive emptyWorld 0 false 2 "x" forceState

def forceFinal : State := forceRun.getD {}

/-- The state in which `x`'s dependency loop completes in the C2
scenario. -/
def forceMid : State :=
  match depLoop (buildPackageRecursive emptyWorld 0 false 1) 0 ["d"] false forceState with
  | some (DepLoopResult.completed s _) => s
  | _ => {}

/-- C6 scenario: `x` (node 0) depends on the installed pacman package `d`
(node 1, settled) and on the already-processed source `e` (node 2,
skipped). -/
def monoPacman : Package := { kind := .pacman, name := "d", installation_status := 3 }

def monoState : State :=
  { registry := [("x", 0), ("d", 1), ("e", 2)],
    store := [{ kind := .source, name := "x", dependencies := ["d", "e"] },
              monoPacman,
              { kind := .source, name := "e", build_status := 2 }] }

def monoRun : Option State := buildPackageRecursive emptyWorld 0 true 2 "x" monoState

def monoFinal : State := monoRun.getD {}

/-! ### Invariants and evolution relations used by the general theorems -/

/-- Both phases leave existing registry bindings and (for the resolution
phase) existing store entries untouched: a name, once bound to a node,
stays bound to that node for the whole run. -/
def RegStorePres (st st' : State) : Prop :=
  (∀ k i, lookupAssoc st.registry k = some i → lookupAssoc st'.registry k = some i) ∧
  (∀ i p, getPkg st i = some p → getPkg st' i = some p)

/-- How one orchestration call may change a node: the construction-time
fields are untouched, a node already carrying an error is left entirely
alone, and a `build_status` that is already terminal keeps its value. -/
def NodeEvolves (p q : Package) : Prop :=
  q.kind = p.kind ∧ q.name = p.name ∧ q.dependencies = p.dependencies ∧
  q.make_dependencies = p.make_dependencies ∧
  q.explicit_build = p.explicit_build ∧ q.cache_available = p.cache_available ∧
  q.is_make_dependency = p.is_make_dependency ∧
  q.split_package_names = p.split_package_names ∧
  (p.error_info.isSome → q = p) ∧
  (p.build_status ≠ 0 → q.build_status = p.build_status)

/-- A node the orchestrator will never touch again under the given
`install_all_dependencies` flag: no error, and either a processed source
node (terminal `build_status`) or a pacman node that is already installed
(status 1 or 3) or will never be install-attempted. -/
def Settled (installAll : Bool) (p : Package) : Prop :=
  p.error_info = none ∧
  ((p.kind = .source → p.build_status ≠ 0) ∧
   (p.kind = .pacman →
     p.installation_status = 1 ∨ p.installation_status = 3 ∨
     (p.is_make_dependency = false ∧ installAll = false)))

/-- Every node with a negative installation status carries an error
(the code always records `error_info` together with status -1). -/
def ErrInv (st : State) : Prop :=
  ∀ p ∈ st.store, p.installation_status < 0 → p.error_info.isSome

/-- What one orchestration call (`build_package_recursive`) can do to the
run state: the registry and the store size never change, the build log
only grows, every node evolves by `NodeEvolves`, settled nodes are left
untouched, and the error invariant is maintained. -/
def BuildPres (ia : Bool) (st st' : State) : Prop :=
  st'.registry = st.registry ∧
  st'.store.length = st.store.length ∧
  (∃ l, st'.builtLog = st.builtLog ++ l) ∧
  (∀ j p, getPkg st j = some p → ∃ q, getPkg st' j = some q ∧ NodeEvolves p q) ∧
  (∀ j p, getPkg st j = some p → Settled ia p → getPkg st' j = some p) ∧
  (ErrInv st → ErrInv st')

/-- `C` is closed under the dependency lists of the nodes its names
resolve to, and none of its names resolves to node `i`: the orchestration
of any name in `C` can then never reach node `i`. -/
def AvoidClosed (st : State) (c : List String) (i : Nat) : Prop :=
  (∀ x ∈ c, ∀ j p, lookupAssoc st.registry x = some j → getPkg st j = some p →
    ∀ d ∈ p.dependencies ++ p.make_dependencies, d ∈ c) ∧
  (∀ x ∈ c, lookupAssoc st.registry x ≠ some i)

/-! ### Theorems -/

set_option maxRecDepth 1000000

/-- C1: in the bar / bar-tool scenario (rebuild policy 0, nothing
cached), bar-tool is indeed built before bar, but — against the claim and
the documented intent — it is *not* installed as a build-only side effect:
resolution never sets `is_make_dependency` on a source node (line 656
assigns it to `explicit_build` instead), and the `self.install()` call
inside `makepkg` is further guarded by `build_status` being 1 or 2, which
the caller only sets after `makepkg` returns.  No pacman install
invocation happens and the pacman database stays empty. -/
theorem c1_buildonly_dependency_not_installed :
    (buildOnlyDepRun.map State.builtLog = some [1, 0]) ∧
    (buildOnlyDepRun.bind fun st => lookupAssoc st.registry "bar") = some 0 ∧
    (buildOnlyDepRun.bind fun st => lookupAssoc st.registry "bar-tool") = some 1 ∧
    ((nodeOf buildOnlyDepRun "bar").map Package.make_dependencies = some ["bar-tool"]) ∧
    ((nodeOf buildOnlyDepRun "bar-tool").map fun p =>
      (p.build_status, p.is_make_dependency, p.installation_status)) = some (1, false, 0) ∧
    (buildOnlyDepRun.map State.installLog = some []) ∧
    (buildOnlyDepRun.map State.installedDB = some []) := by
  decide

/-- C2 counterexample: `x` depends on `d1` and `d2`; `d1` is a source
node that was actually rebuilt (`build_status = 1`), yet `x` is not built:
`d2` carries a resolution error, so the dependency loop sets
`build_status = 4` on `x` and `makepkg` is never invoked for it (`x` is
node 0 and the build log contains only node 1). -/
theorem c2_counterexample :
    ((nodeOf rebuiltThenErrorRun "x").map fun p =>
      (p.kind, p.build_status, p.dependencies)) = some (.source, 4, ["d1", "d2"]) ∧
    ((nodeOf rebuiltThenErrorRun "d1").map fun p =>
      (p.kind, p.build_status)) = some (.source, 1) ∧
    ((nodeOf rebuiltThenErrorRun "d2").map fun p => p.error_info.isSome) = some true ∧
    (rebuiltThenErrorRun.bind fun st => lookupAssoc st.registry "x") = some 0 ∧
    (rebuiltThenErrorRun.map State.builtLog) = some [1] := by
  decide

/-- C3: a locally sourced package named on the command line whose exact
artifact is in the cache is *skipped* under rebuild policy 1, because line
656 of `get_package_recursive` overwrites `explicit_build` with
`is_make_dependency` (false for a top-level target), so the
`cache_available < 2 or explicit_build` test fails. -/
theorem c3_explicit_local_target_skipped :
    ((nodeOf explicitCachedRun "bar").map fun p =>
      (p.explicit_build, p.cache_available, p.build_status)) = some (false, 2, 2) ∧
    (explicitCachedRun.map State.builtLog = some []) := by
  decide

/-- C8 counterexample: `p` depends on `s1` (whose dependency `x` fails to
resolve, so `s1` ends dependency-failed) and on `s2` (which builds fine
from its own subtree).  The report's `success` flag is reassigned from the
later sibling's subtree (run.py line 854), erasing the earlier failure:
the rendered tree for `p` reports overall success although `s1` has
`build_status = 4` and `x` carries an error. -/
theorem c8_counterexample :
    ((erasedFailureRun.bind fun st => printBuildLog st 8 "p").map Prod.fst) = some true ∧
    ((nodeOf erasedFailureRun "s1").map Package.build_status) = some 4 ∧
    ((nodeOf erasedFailureRun "x").map fun p => p.error_info.isSome) = some true := by
  decide

/-- C8 amended: for the three-level chain `a → b → c` where the build of
`c` fails, the rendered report marks `c` as failed, `b` and `a` as
dependency-failed (even though `a`'s own build step succeeded), with the
`└──` last-sibling connector and continuation indentation, and the overall
success flag is false. -/
theorem c8_chain_report_amended :
    (chainRun.bind fun st => printBuildLog st 8 "a") =
      some (false,
        ["a 1.0-1: Dependency Failed: None",
         "└── b 1.0-1: Dependency Failed: None",
         "    └── c 1.0-1: Failed: Failed to build package c"]) ∧
    ((nodeOf chainRun "a").map Package.build_status) = some 1 ∧
    ((nodeOf chainRun "b").map Package.build_status) = some 4 ∧
    ((nodeOf chainRun "c").map fun p => (p.build_status, p.error_info.isSome)) =
      some (3, true) := by
  decide

/-- C10: with the artifact cache holding only the exact artifact of the
distinct package `foo-extra` (version 2.0-1), the cache check for a node
named `foo` (version 1.0-1, x86_64) reports 1 ("different version
available"): the unanchored unescaped pattern `foo-(\S+)-x86_64.pkg.tar.xz`
matches the other package's file name.  An empty cache reports 0 and the
exact artifact reports 2. -/
theorem c10_stale_cache_regex :
    checkCacheAvailable ["foo-extra-2.0-1-x86_64.pkg.tar.xz"] "foo"
      (some "1.0-1") (some "x86_64") = 1 ∧
    "foo-extra-2.0-1-x86_64.pkg.tar.xz" =
      cacheFileName "foo-extra" (some "2.0-1") (some "x86_64") ∧
    checkCacheAvailable [] "foo" (some "1.0-1") (some "x86_64") = 0 ∧
    checkCacheAvailable ["foo-1.0-1-x86_64.pkg.tar.xz"] "foo"
      (some "1.0-1") (some "x86_64") = 2 := by
  decide

/-- C6 counterexample: the official package `dep` exists at version 2.0-1
while version 1.0-1 is installed, so after resolution its
`installation_status` is 2 (different-version-installed, a terminal value
per the claim); the orchestrator with `install_all_dependencies` then
installs it, overwriting the status with 3 (successfully installed). -/
theorem c6_counterexample :
    ((diffVersionResolve.bind fun st => getPkg st 0).map Package.installation_status) = some 2 ∧
    ((diffVersionBuild.bind fun st => getPkg st 0).map Package.installation_status) = some 3 := by
  decide

/-- C5 counterexample: resolving the local split recipe in directory
`foo-a` (base name `foo`, produced names `foo-a` and `foo-b`) registers
the requested name and the base name as aliases of the same node, but the
produced name `foo-b` — recorded in the node's `split_package_names` — is
*not* a key of the registry. -/
theorem c5_counterexample :
    (splitResolveRun.bind fun st => lookupAssoc st.registry "foo-a") = some 0 ∧
    (splitResolveRun.bind fun st => lookupAssoc st.registry "foo") = some 0 ∧
    ((nodeOf splitResolveRun "foo").map Package.split_package_names) =
      some (some ["foo-a", "foo-b"]) ∧
    (splitResolveRun.map fun st => (lookupAssoc st.registry "foo-b").isSome) = some false := by
  decide

/-- C9 counterexample: installing the freshly built split package `base`
(split names `liba`, `libb`) where the install of `liba` fails: the node
records install-failed and the error, but the install of `libb` is never
attempted (the invocation log holds only `liba`), although `libb`'s own
install would have succeeded. -/
theorem c9_counterexample :
    (sourceInstall splitInstallWorld splitInstallState 0).installLog = ["liba"] ∧
    ((getPkg (sourceInstall splitInstallWorld splitInstallState 0) 0).map fun p =>
      (p.installation_status, p.error_info.isSome)) = some (-1, true) ∧
    splitInstallWorld.pacmanUOk "libb" = true := by
  decide

/-! ### Basic state-access lemmas -/

theorem getPkg_setPkg_self (st : State) (i : Nat) (p q : Package)
    (h : getPkg st i = some q) : getPkg (setPkg st i p) i = some p := by
  have hlt : i < st.store.length := by
    by_contra hge
    have hn : st.store.get? i = none := List.get?_eq_none.mpr (Nat.le_of_not_lt hge)
    rw [getPkg, hn] at h
    exact Option.noConfusion h
  show (st.store.set i p).get? i = some p
  rw [List.get?_eq_getElem?]
  exact List.getElem?_set_eq_of_lt p hlt

theorem getPkg_setPkg_other (st : State) (i j : Nat) (p : Package)
    (h : i ≠ j) : getPkg (setPkg st i p) j = getPkg st j := by
  show (st.store.set i p).get? j = st.store.get? j
  rw [List.get?_eq_getElem?, List.get?_eq_getElem?]
  exact List.getElem?_set_ne h

theorem storeLen_setPkg (st : State) (i : Nat) (p : Package) :
    (setPkg st i p).store.length = st.store.length := by
  simp [setPkg]

/-! ### C9 amended: split installation -/

theorem sourceInstallLoop_cons_ok (w : World) (v : Option String) (i : Nat)
    (n : String) (rest : List String) (st : State) (p : Package)
    (hp : getPkg st i = some p) (hok : w.pacmanUOk n = true) :
    ∃ st1, sourceInstallLoop w v i (n :: rest) st = sourceInstallLoop w v i rest st1 ∧
      getPkg st1 i = some { p with installation_status := 3 } ∧
      st1.installLog = st.installLog ++ [n] ∧
      st1.builtLog = st.builtLog ∧ st1.registry = st.registry ∧
      st1.store.length = st.store.length ∧
      (∀ j, j ≠ i → getPkg st1 j = getPkg st j) := by
  refine Exists.intro
    ({ setPkg { st with installLog := st.installLog ++ [n] } i
        { p with installation_status := 3 } with
      installedDB := setAssoc (setPkg { st with installLog := st.installLog ++ [n] } i
        { p with installation_status := 3 }).installedDB n (v.getD "None") })
    ⟨?_, ?_, ?_, ?_, ?_, ?_, ?_⟩
  · simp only [sourceInstallLoop]
    rw [hp]
    simp [hok]
  · exact getPkg_setPkg_self { st with installLog := st.installLog ++ [n] } i
      { p with installation_status := 3 } p hp
  · rfl
  · rfl
  · rfl
  · exact storeLen_setPkg _ i _
  · intro j hj
    exact getPkg_setPkg_other _ i j _ (fun he => hj he.symm)

theorem sourceInstallLoop_cons_fail (w : World) (v : Option String) (i : Nat)
    (n : String) (rest : List String) (st : State) (p : Package)
    (hp : getPkg st i = some p) (hfail : w.pacmanUOk n = false) :
    sourceInstallLoop w v i (n :: rest) st =
      setPkg { st with installLog := st.installLog ++ [n] } i
        (setError { p with installation_status := -1 }
          ("Failed to install package " ++ n)) := by
  simp only [sourceInstallLoop]
  rw [hp]
  simp [hfail]

theorem sourceInstallLoop_all_ok (w : World) (v : Option String) (i : Nat) :
    ∀ (names : List String) (st : State) (p : Package),
    getPkg st i = some p →
    (∀ n ∈ names, w.pacmanUOk n = true) →
    (sourceInstallLoop w v i names st).installLog = st.installLog ++ names ∧
    (names = [] → sourceInstallLoop w v i names st = st) ∧
    (names ≠ [] →
      (getPkg (sourceInstallLoop w v i names st) i).map Package.installation_status = some 3) := by
  intro names
  induction names with
  | nil =>
    intro st p hp _
    exact ⟨by simp [sourceInstallLoop], fun _ => rfl, fun h => absurd rfl h⟩
  | cons n rest ih =>
    intro st p hp hok
    have hokn : w.pacmanUOk n = true := hok n (List.mem_cons_self n rest)
    have hrest : ∀ m ∈ rest, w.pacmanUOk m = true := fun m hm => hok m (List.mem_cons_of_mem n hm)
    obtain ⟨st1, hstep, hp1, hlog1, _, _, _, _⟩ :=
      sourceInstallLoop_cons_ok w v i n rest st p hp hokn
    rcases ih st1 { p with installation_status := 3 } hp1 hrest with ⟨hlog, hnil, hne⟩
    refine ⟨?_, fun h => List.noConfusion h, fun _ => ?_⟩
    · rw [hstep, hlog, hlog1, List.append_assoc]
      rfl
    · rw [hstep]
      cases hr : rest with
      | nil =>
        subst hr
        rw [hnil rfl, hp1]
        rfl
      | cons a t =>
        subst hr
        exact hne (by simp)

theorem sourceInstallLoop_first_fail (w : World) (v : Option String) (i : Nat) :
    ∀ (pre : List String) (b : String) (post : List String) (st : State) (p : Package),
    getPkg st i = some p →
    (∀ n ∈ pre, w.pacmanUOk n = true) →
    w.pacmanUOk b = false →
    (sourceInstallLoop w v i (pre ++ b :: post) st).installLog = st.installLog ++ pre ++ [b] ∧
    (getPkg (sourceInstallLoop w v i (pre ++ b :: post) st) i).map
        (fun q => (q.installation_status, q.error_info)) =
      some (-1, some ("Failed to install package " ++ b)) := by
  intro pre
  induction pre with
  | nil =>
    intro b post st p hp _ hb
    rw [List.nil_append, sourceInstallLoop_cons_fail w v i b post st p hp hb]
    constructor
    · simp [setPkg]
    · rw [getPkg_setPkg_self { st with installLog := st.installLog ++ [b] } i
        (setError { p with installation_status := -1 }
          ("Failed to install package " ++ b)) p hp]
      rfl
  | cons n rest ih =>
    intro b post st p hp hok hb
    have hokn : w.pacmanUOk n = true := hok n (List.mem_cons_self n rest)
    have hrest : ∀ m ∈ rest, w.pacmanUOk m = true := fun m hm => hok m (List.mem_cons_of_mem n hm)
    obtain ⟨st1, hstep, hp1, hlog1, _, _, _, _⟩ :=
      sourceInstallLoop_cons_ok w v i n (rest ++ b :: post) st p hp hokn
    rcases ih b post st1 { p with installation_status := 3 } hp1 hrest hb with ⟨hlog, hq⟩
    rw [List.cons_append, hstep]
    refine ⟨?_, hq⟩
    rw [hlog, hlog1]
    simp

/-- C9 amended: when an eligible split-package node is installed, each
split name is installed by its own `pacman -U` invocation in order; if all
succeed the node ends with `installation_status = 3`, and at the *first*
failure the node records install-failed and the error and the remaining
split names are never attempted (the loop returns immediately instead of
continuing with the siblings). -/
theorem c9_split_install_amended (w : World) (st : State) (i : Nat)
    (p : Package) (names : List String)
    (hp : getPkg st i = some p)
    (hinst : ¬(p.installation_status = 1 ∨ p.installation_status = 3))
    (hbuild : p.build_status = 1 ∨ p.build_status = 2)
    (hsplit : p.split_package_names = some names) (hne : names ≠ []) :
    ((∀ n ∈ names, w.pacmanUOk n = true) →
      (sourceInstall w st i).installLog = st.installLog ++ names ∧
      (getPkg (sourceInstall w st i) i).map Package.installation_status = some 3) ∧
    (∀ pre b post, names = pre ++ b :: post →
      (∀ n ∈ pre, w.pacmanUOk n = true) → w.pacmanUOk b = false →
      (sourceInstall w st i).installLog = st.installLog ++ pre ++ [b] ∧
      (getPkg (sourceInstall w st i) i).map
          (fun q => (q.installation_status, q.error_info)) =
        some (-1, some ("Failed to install package " ++ b))) := by
  obtain ⟨n0, rest0, hcons⟩ : ∃ n0 rest0, names = n0 :: rest0 := by
    cases names with
    | nil => exact absurd rfl hne
    | cons a t => exact ⟨a, t, rfl⟩
  have hunf : sourceInstall w st i = sourceInstallLoop w p.version i names st := by
    have h1 : (!(p.installation_status = 1 || p.installation_status = 3)
        && (p.build_status = 1 || p.build_status = 2)) = true := by
      simp only [Bool.and_eq_true, Bool.not_eq_true', Bool.or_eq_false_iff,
        Bool.or_eq_true, decide_eq_true_eq, decide_eq_false_iff_not]
      exact ⟨⟨fun h => hinst (Or.inl h), fun h => hinst (Or.inr h)⟩, hbuild⟩
    simp only [sourceInstall]
    rw [hp]
    simp only [h1, if_true, hsplit, hcons]
  constructor
  · intro hok
    rcases sourceInstallLoop_all_ok w p.version i names st p hp hok with ⟨hlog, _, hne3⟩
    rw [hunf]
    exact ⟨hlog, hne3 hne⟩
  · intro pre b post hsplitn hok hb
    subst hsplitn
    rcases sourceInstallLoop_first_fail w p.version i pre b post st p hp hok hb with ⟨hlog, hq⟩
    rw [hunf]
    exact ⟨hlog, hq⟩

/-- Witness for `c9_split_install_amended` at a concrete input: the
counterexample scenario's node (split names `liba`, `libb`, built, not
yet installed), instantiating the first-failure branch (the world fails
on `liba`) and checking the hypotheses concretely. -/
theorem c9_split_install_witness :
    (getPkg splitInstallState 0 = some splitInstallPkg) ∧
    (¬(splitInstallPkg.installation_status = 1 ∨ splitInstallPkg.installation_status = 3)) ∧
    (splitInstallPkg.build_status = 1 ∨ splitInstallPkg.build_status = 2) ∧
    (splitInstallPkg.split_package_names = some ["liba", "libb"]) ∧
    (sourceInstall splitInstallWorld splitInstallState 0).installLog =
      splitInstallState.installLog ++ [] ++ ["liba"] := by
  refine ⟨by decide, by decide, by decide, by decide, ?_⟩
  have h := c9_split_install_amended splitInstallWorld splitInstallState 0 splitInstallPkg
    ["liba", "libb"] (by decide) (by decide) (by decide) (by decide) (by decide)
  exact (h.2 [] "liba" ["libb"] rfl (by intro n hn; cases hn) (by decide)).1

/-! ### Registry preservation through resolution (towards C5) -/

theorem lookupAssoc_setAssoc_self {α : Type} (l : List (String × α)) (k : String) (v : α) :
    lookupAssoc (setAssoc l k v) k = some v := by
  induction l with
  | nil => simp [setAssoc, lookupAssoc]
  | cons h t ih =>
    obtain ⟨k', v'⟩ := h
    by_cases hk : k' = k
    · subst hk
      simp [setAssoc, lookupAssoc]
    · simp [setAssoc, lookupAssoc, hk, ih]

theorem lookupAssoc_setAssoc_ne {α : Type} (l : List (String × α)) (k k' : String) (v : α)
    (h : k ≠ k') : lookupAssoc (setAssoc l k v) k' = lookupAssoc l k' := by
  induction l with
  | nil => simp [setAssoc, lookupAssoc, h]
  | cons hd t ih =>
    obtain ⟨k0, v0⟩ := hd
    by_cases hk : k0 = k
    · subst hk
      simp [setAssoc, lookupAssoc, h]
    · simp [setAssoc, lookupAssoc, hk, ih]

/-- Inserting a binding that is either fresh or re-binds a key to the
value it already has preserves every existing binding. -/
theorem lookupAssoc_setAssoc_pres {α : Type} (l : List (String × α)) (k : String) (v : α)
    (hfresh : lookupAssoc l k = none ∨ lookupAssoc l k = some v) :
    ∀ k' v', lookupAssoc l k' = some v' → lookupAssoc (setAssoc l k v) k' = some v' := by
  intro k' v' h
  by_cases hk : k = k'
  · subst hk
    rcases hfresh with hf | hf
    · rw [h] at hf; exact Option.noConfusion hf
    · rw [h] at hf
      rw [lookupAssoc_setAssoc_self]
      exact hf.symm
  · rw [lookupAssoc_setAssoc_ne l k k' v hk]
    exact h

theorem getPkg_addPackage_old (st : State) (nm : String) (q : Package)
    (i : Nat) (p : Package) (h : getPkg st i = some p) :
    getPkg (addPackage st nm q).1 i = some p := by
  have hlt : i < st.store.length := by
    by_contra hge
    have hn : st.store.get? i = none := List.get?_eq_none.mpr (Nat.le_of_not_lt hge)
    rw [getPkg, hn] at h
    exact Option.noConfusion h
  show (st.store ++ [q]).get? i = some p
  rw [List.get?_append hlt]
  exact h

theorem getPkg_addPackage_new (st : State) (nm : String) (q : Package) :
    getPkg (addPackage st nm q).1 st.store.length = some q := by
  show (st.store ++ [q]).get? st.store.length = some q
  exact List.get?_concat_length st.store q

theorem regStorePres_refl (st : State) : RegStorePres st st :=
  ⟨fun _ _ h => h, fun _ _ h => h⟩

theorem regStorePres_trans {s1 s2 s3 : State}
    (h12 : RegStorePres s1 s2) (h23 : RegStorePres s2 s3) : RegStorePres s1 s3 :=
  ⟨fun k i h => h23.1 k i (h12.1 k i h), fun i p h => h23.2 i p (h12.2 i p h)⟩

/-- The state reached after registering a fresh source node (the two dict
assignments of lines 657-659 / 682-684) preserves existing bindings and
store entries, and binds both the requested and the parsed name to the
new node. -/
theorem registerSource_pres (st : State) (reqName : String) (q : Package)
    (hreq : lookupAssoc st.registry reqName = none)
    (hparsed : lookupAssoc st.registry q.name = none) :
    RegStorePres st (addAlias (addPackage st reqName q).1 q.name (addPackage st reqName q).2) ∧
    lookupAssoc (addAlias (addPackage st reqName q).1 q.name (addPackage st reqName q).2).registry
      reqName = some st.store.length ∧
    lookupAssoc (addAlias (addPackage st reqName q).1 q.name (addPackage st reqName q).2).registry
      q.name = some st.store.length ∧
    getPkg (addAlias (addPackage st reqName q).1 q.name (addPackage st reqName q).2)
      st.store.length = some q := by
  have hreg1 : (addPackage st reqName q).1.registry = setAssoc st.registry reqName st.store.length := rfl
  have hidx : (addPackage st reqName q).2 = st.store.length := rfl
  have hreg2 : (addAlias (addPackage st reqName q).1 q.name (addPackage st reqName q).2).registry =
      setAssoc (setAssoc st.registry reqName st.store.length) q.name st.store.length := by
    rw [addAlias, hreg1, hidx]
  have hl1 : lookupAssoc (setAssoc st.registry reqName st.store.length) q.name = none ∨
      lookupAssoc (setAssoc st.registry reqName st.store.length) q.name = some st.store.length := by
    by_cases he : reqName = q.name
    · rw [← he]
      exact Or.inr (lookupAssoc_setAssoc_self st.registry reqName st.store.length)
    · rw [lookupAssoc_setAssoc_ne st.registry reqName q.name st.store.length he]
      exact Or.inl hparsed
  refine ⟨⟨?_, ?_⟩, ?_, ?_, ?_⟩
  · intro k i h
    rw [hreg2]
    refine lookupAssoc_setAssoc_pres _ q.name st.store.length hl1 k i ?_
    refine lookupAssoc_setAssoc_pres _ reqName st.store.length (Or.inl hreq) k i h
  · intro i p h
    show getPkg (addPackage st reqName q).1 i = some p
    exact getPkg_addPackage_old st reqName q i p h
  · rw [hreg2]
    refine lookupAssoc_setAssoc_pres _ q.name st.store.length hl1 reqName st.store.length ?_
    exact lookupAssoc_setAssoc_self st.registry reqName st.store.length
  · rw [hreg2]
    exact lookupAssoc_setAssoc_self _ q.name st.store.length
  · show getPkg (addPackage st reqName q).1 st.store.length = some q
    exact getPkg_addPackage_new st reqName q

/-- One-step unfolding of the fuelled resolver. -/
theorem getPackageRecursive_succ (w : World) (removeDl : Bool) (fuel : Nat) :
    getPackageRecursive w removeDl (fuel + 1) =
      resolveVisit w removeDl (getPackageRecursive w removeDl fuel) := rfl

theorem resolveList_pres (f : String → Bool → Bool → State → Option State)
    (hf : ∀ n e m st st', f n e m st = some st' → RegStorePres st st') :
    ∀ (names : List String) (m : Bool) (st st' : State),
    resolveList f m names st = some st' → RegStorePres st st' := by
  intro names
  induction names with
  | nil =>
    intro m st st' h
    rw [resolveList] at h
    cases h
    exact regStorePres_refl _
  | cons n rest ih =>
    intro m st st' h
    rw [resolveList] at h
    cases hstep : f n false m st with
    | none => rw [hstep] at h; exact Option.noConfusion h
    | some st1 =>
      rw [hstep] at h
      exact regStorePres_trans (hf n false m st st1 hstep) (ih m st1 st' h)

theorem getPackageRecursive_pres (w : World) (removeDl : Bool) :
    ∀ (fuel : Nat) (n : String) (e m : Bool) (st st' : State),
    getPackageRecursive w removeDl fuel n e m st = some st' → RegStorePres st st' := by
  intro fuel
  induction fuel with
  | zero => intro n e m st st' h; exact Option.noConfusion h
  | succ fuel ih =>
    intro n e m st st' h
    rw [getPackageRecursive_succ, resolveVisit] at h
    by_cases hmemo : (lookupAssoc st.registry n).isSome
    · rw [if_pos hmemo] at h
      cases h
      exact regStorePres_refl _
    · rw [if_neg hmemo] at h
      by_cases hoff : (w.official n).isSome
      · rw [if_pos hoff] at h
        cases h
        refine ⟨?_, ?_⟩
        · intro k i hk
          refine lookupAssoc_setAssoc_pres _ n st.store.length ?_ k i hk
          exact Or.inl (Option.not_isSome_iff_eq_none.mp hmemo)
        · intro i p hp
          exact getPkg_addPackage_old st n _ i p hp
      · rw [if_neg hoff] at h
        have hlift : ∀ (q : Package) (st1 : State),
            RegStorePres st st1 →
            (match resolveList (getPackageRecursive w removeDl fuel)
                (if m then true else false) q.dependencies st1 with
              | none => none
              | some st2 => resolveList (getPackageRecursive w removeDl fuel) true
                  q.make_dependencies st2) = some st' →
            RegStorePres st st' := by
          intro q st1 hpres hrun
          cases hdeps : resolveList (getPackageRecursive w removeDl fuel)
              (if m then true else false) q.dependencies st1 with
          | none => rw [hdeps] at hrun; exact Option.noConfusion hrun
          | some st2 =>
            rw [hdeps] at hrun
            have h1 := resolveList_pres _ (fun n2 e2 m2 s s2 => ih n2 e2 m2 s s2) _ _ _ _ hdeps
            have h2 := resolveList_pres _ (fun n2 e2 m2 s s2 => ih n2 e2 m2 s s2) _ _ _ _ hrun
            exact regStorePres_trans hpres (regStorePres_trans h1 h2)
        by_cases hloc : n ∈ w.localSources
        · rw [if_pos hloc] at h
          set lcl0 := mkPackageSource w st.installedDB (.localDir n) n removeDl with hlcl0
          by_cases hpn : (lookupAssoc st.registry lcl0.name).isSome
          · rw [if_pos hpn] at h
            cases h
            exact regStorePres_refl _
          · rw [if_neg hpn] at h
            set lcl2 : Package := { { lcl0 with explicit_build := e } with explicit_build := m } with hlcl2
            have hname : lcl2.name = lcl0.name := rfl
            have hpres0 := registerSource_pres st n lcl2
              (Option.not_isSome_iff_eq_none.mp hmemo)
              (by rw [hname]; exact Option.not_isSome_iff_eq_none.mp hpn)
            by_cases herr : lcl2.error_info.isSome
            · rw [if_pos herr] at h
              cases h
              exact hpres0.1
            · rw [if_neg herr] at h
              exact hlift lcl2 _ hpres0.1 h
        · rw [if_neg hloc] at h
          set aur0 := mkPackageSource w st.installedDB .aur n removeDl with haur0
          by_cases hpn : (lookupAssoc st.registry aur0.name).isSome
          · rw [if_pos hpn] at h
            cases h
            exact regStorePres_refl _
          · rw [if_neg hpn] at h
            set aur2 : Package := { aur0 with explicit_build := e } with haur2
            have hname : aur2.name = aur0.name := rfl
            have hpres0 := registerSource_pres st n aur2
              (Option.not_isSome_iff_eq_none.mp hmemo)
              (by rw [hname]; exact Option.not_isSome_iff_eq_none.mp hpn)
            by_cases herr : aur2.error_info.isSome
            · rw [if_pos herr] at h
              cases h
              exact hpres0.1
            · rw [if_neg herr] at h
              exact hlift aur2 _ hpres0.1 h

/-- C5 amended, two parts.  (i) Resolving a fresh local source name (no
official package, requested name not yet registered, parsed name also not
yet registered) binds *both* the requested name and the recipe's parsed
(base) name to the same new node — object aliasing, modelled by the shared
store index `st.store.length` — and that node carries the recipe's
`split_package_names`; the bindings and the node survive the recursive
resolution of the dependencies.  Produced split names other than the
requested one are not registered (see the counterexample).  (ii) When the
parsed name is *already* a registry key, the call returns the state
unchanged without registering anything (run.py lines 653-654): the
requested name, although passed to resolution, ends with no registry
binding at all. -/
theorem c5_split_alias_amended :
    (∀ (w : World) (removeDl : Bool) (fuel : Nat) (name : String) (e m : Bool)
      (st st' : State),
      getPackageRecursive w removeDl (fuel + 1) name e m st = some st' →
      lookupAssoc st.registry name = none →
      w.official name = none →
      name ∈ w.localSources →
      lookupAssoc st.registry (localNode w st name removeDl).name = none →
      lookupAssoc st'.registry name = some st.store.length ∧
      lookupAssoc st'.registry (localNode w st name removeDl).name = some st.store.length ∧
      getPkg st' st.store.length =
        some { localNode w st name removeDl with explicit_build := m }) ∧
    (∀ (w : World) (removeDl : Bool) (fuel : Nat) (name : String) (e m : Bool)
      (st st' : State) (j : Nat),
      getPackageRecursive w removeDl (fuel + 1) name e m st = some st' →
      lookupAssoc st.registry name = none →
      w.official name = none →
      name ∈ w.localSources →
      lookupAssoc st.registry (localNode w st name removeDl).name = some j →
      st' = st ∧ lookupAssoc st'.registry name = none) := by
  constructor
  · intro w removeDl fuel name e m st st' hrun hmemo hoff hloc hpn
    rw [getPackageRecursive_succ] at hrun
    rw [resolveVisit] at hrun
    rw [if_neg (by simp [hmemo])] at hrun
    rw [if_neg (by simp [hoff])] at hrun
    rw [if_pos hloc] at hrun
    have hpn' : lookupAssoc st.registry
        (mkPackageSource w st.installedDB (.localDir name) name removeDl).name = none := hpn
    rw [if_neg (by simp [hpn'])] at hrun
    set p2 : Package :=
      { mkPackageSource w st.installedDB (.localDir name) name removeDl with
        explicit_build := m } with hp2
    have hpres0 := registerSource_pres st name p2 hmemo hpn'
    set st1 := addAlias (addPackage st name p2).1 p2.name (addPackage st name p2).2 with hst1
    have hfin : RegStorePres st1 st' := by
      by_cases herr : p2.error_info.isSome
      · rw [if_pos herr] at hrun
        cases hrun
        exact regStorePres_refl _
      · rw [if_neg herr] at hrun
        cases hdeps : resolveList (getPackageRecursive w removeDl fuel)
            (if m then true else false) p2.dependencies st1 with
        | none => rw [hdeps] at hrun; exact Option.noConfusion hrun
        | some st2 =>
          rw [hdeps] at hrun
          have h1 := resolveList_pres _
            (fun n2 e2 m2 s s2 => getPackageRecursive_pres w removeDl fuel n2 e2 m2 s s2)
            _ _ _ _ hdeps
          have h2 := resolveList_pres _
            (fun n2 e2 m2 s s2 => getPackageRecursive_pres w removeDl fuel n2 e2 m2 s s2)
            _ _ _ _ hrun
          exact regStorePres_trans h1 h2
    have hn2 : p2.name = (localNode w st name removeDl).name := rfl
    refine ⟨?_, ?_, ?_⟩
    · exact hfin.1 name st.store.length hpres0.2.1
    · rw [← hn2]
      exact hfin.1 p2.name st.store.length hpres0.2.2.1
    · exact hfin.2 st.store.length p2 hpres0.2.2.2
  · intro w removeDl fuel name e m st st' j hrun hmemo hoff hloc hpn
    rw [getPackageRecursive_succ] at hrun
    rw [resolveVisit] at hrun
    rw [if_neg (by simp [hmemo])] at hrun
    rw [if_neg (by simp [hoff])] at hrun
    rw [if_pos hloc] at hrun
    have hpn' : lookupAssoc st.registry
        (mkPackageSource w st.installedDB (.localDir name) name removeDl).name = some j := hpn
    rw [if_pos (by simp [hpn'])] at hrun
    have hst : st' = st := (Option.some.inj hrun).symm
    subst hst
    exact ⟨rfl, hmemo⟩

/-! ### Orchestration evolution lemmas (towards C2, C4, C6) -/

theorem buildPackageRecursive_zero (w : World) (rb : Nat) (ia : Bool)
    (n : String) (st : State) : buildPackageRecursive w rb ia 0 n st = none := rfl

theorem buildPackageRecursive_succ (w : World) (rb : Nat) (ia : Bool) (fuel : Nat) :
    buildPackageRecursive w rb ia (fuel + 1) =
      buildVisit w rb ia (buildPackageRecursive w rb ia fuel) := rfl

theorem nodeEvolves_refl (p : Package) : NodeEvolves p p :=
  ⟨rfl, rfl, rfl, rfl, rfl, rfl, rfl, rfl, fun _ => rfl, fun _ => rfl⟩

theorem nodeEvolves_trans {p q r : Package}
    (h1 : NodeEvolves p q) (h2 : NodeEvolves q r) : NodeEvolves p r := by
  obtain ⟨k1, n1, d1, m1, e1, c1, i1, s1, er1, b1⟩ := h1
  obtain ⟨k2, n2, d2, m2, e2, c2, i2, s2, er2, b2⟩ := h2
  refine ⟨k2.trans k1, n2.trans n1, d2.trans d1, m2.trans m1, e2.trans e1,
    c2.trans c1, i2.trans i1, s2.trans s1, ?_, ?_⟩
  · intro hp
    have hq : q = p := er1 hp
    subst hq
    exact er2 hp
  · intro hb
    have hq : q.build_status = p.build_status := b1 hb
    rw [← hq]
    exact b2 (by rw [hq]; exact hb)

theorem buildPres_refl (ia : Bool) (st : State) : BuildPres ia st st :=
  ⟨rfl, rfl, ⟨[], by simp⟩, fun _ p h => ⟨p, h, nodeEvolves_refl p⟩,
   fun _ _ h _ => h, fun h => h⟩

theorem buildPres_trans {ia : Bool} {s1 s2 s3 : State}
    (h12 : BuildPres ia s1 s2) (h23 : BuildPres ia s2 s3) : BuildPres ia s1 s3 := by
  obtain ⟨r1, l1, ⟨b1, hb1⟩, e1, st1, i1⟩ := h12
  obtain ⟨r2, l2, ⟨b2, hb2⟩, e2, st2, i2⟩ := h23
  refine ⟨r2.trans r1, l2.trans l1, ⟨b1 ++ b2, by rw [hb2, hb1, List.append_assoc]⟩, ?_, ?_, fun h => i2 (i1 h)⟩
  · intro j p hp
    obtain ⟨q, hq, hev⟩ := e1 j p hp
    obtain ⟨r, hr, hev2⟩ := e2 j q hq
    exact ⟨r, hr, nodeEvolves_trans hev hev2⟩
  · intro j p hp hs
    exact st2 j p (st1 j p hp hs) hs

theorem errInv_setPkg (st : State) (i : Nat) (q : Package)
    (hq : q.installation_status < 0 → q.error_info.isSome = true)
    (h : ErrInv st) : ErrInv (setPkg st i q) := by
  intro p hp hneg
  rcases List.mem_or_eq_of_mem_set hp with hmem | heq
  · exact h p hmem hneg
  · subst heq
    exact hq hneg

theorem errInv_of_getPkg {st : State} {i : Nat} {p : Package}
    (h : ErrInv st) (hp : getPkg st i = some p)
    (hneg : p.installation_status < 0) : p.error_info.isSome = true :=
  h p (List.get?_mem hp) hneg

/-- Effect of `setBuildStatus` on a state with an existing node. -/
theorem setBuildStatus_effect (st : State) (i : Nat) (b : Nat) (p : Package)
    (hp : getPkg st i = some p) :
    (setBuildStatus st i b).registry = st.registry ∧
    (setBuildStatus st i b).store.length = st.store.length ∧
    (setBuildStatus st i b).builtLog = st.builtLog ∧
    (∀ j, j ≠ i → getPkg (setBuildStatus st i b) j = getPkg st j) ∧
    getPkg (setBuildStatus st i b) i = some { p with build_status := b } := by
  rw [setBuildStatus, hp]
  exact ⟨rfl, storeLen_setPkg st i _, rfl,
    fun j hj => getPkg_setPkg_other st i j _ (fun he => hj he.symm),
    getPkg_setPkg_self st i _ p hp⟩

theorem pacmanInstall_skip (w : World) (st : State) (i : Nat) (p : Package)
    (hp : getPkg st i = some p)
    (hyes : p.installation_status = 1 ∨ p.installation_status = 3) :
    pacmanInstall w st i = st := by
  rcases hyes with h | h <;> (rw [pacmanInstall, hp]; simp [h])

theorem pacmanInstall_effect (w : World) (st : State) (i : Nat) (p : Package)
    (hp : getPkg st i = some p)
    (hno : ¬(p.installation_status = 1 ∨ p.installation_status = 3)) :
    (pacmanInstall w st i).registry = st.registry ∧
    (pacmanInstall w st i).store.length = st.store.length ∧
    (pacmanInstall w st i).builtLog = st.builtLog ∧
    (∀ j, j ≠ i → getPkg (pacmanInstall w st i) j = getPkg st j) ∧
    ((w.pacmanSOk p.name = true ∧
        getPkg (pacmanInstall w st i) i = some { p with installation_status := 3 }) ∨
     (w.pacmanSOk p.name = false ∧
        getPkg (pacmanInstall w st i) i = some (setError { p with installation_status := -1 }
          ("Failed to install package " ++ p.name)))) := by
  have hno1 : ¬ p.installation_status = 1 := fun h => hno (Or.inl h)
  have hno3 : ¬ p.installation_status = 3 := fun h => hno (Or.inr h)
  cases hok : w.pacmanSOk p.name with
  | true =>
    have hres : pacmanInstall w st i =
        { setPkg { st with installLog := st.installLog ++ [p.name] } i
            { p with installation_status := 3 } with
          installedDB := setAssoc (setPkg { st with installLog := st.installLog ++ [p.name] } i
            { p with installation_status := 3 }).installedDB p.name (p.version.getD "None") } := by
      rw [pacmanInstall, hp]
      simp [hno1, hno3, hok]
    rw [hres]
    refine ⟨rfl, storeLen_setPkg _ i _, rfl, ?_, Or.inl ⟨rfl, ?_⟩⟩
    · intro j hj
      exact getPkg_setPkg_other _ i j _ (fun he => hj he.symm)
    · exact getPkg_setPkg_self _ i _ p hp
  | false =>
    have hres : pacmanInstall w st i =
        setPkg { st with installLog := st.installLog ++ [p.name] } i
          (setError { p with installation_status := -1 }
            ("Failed to install package " ++ p.name)) := by
      rw [pacmanInstall, hp]
      simp [hno1, hno3, hok]
    rw [hres]
    refine ⟨rfl, storeLen_setPkg _ i _, rfl, ?_, Or.inr ⟨rfl, ?_⟩⟩
    · intro j hj
      exact getPkg_setPkg_other _ i j _ (fun he => hj he.symm)
    · exact getPkg_setPkg_self _ i _ p hp

/-- Witness for `c5_split_alias_amended`: part (i) at the split-recipe
scenario (directory `foo-a`, base name `foo`, producing `foo-a` and
`foo-b`), part (ii) at the collision scenario (`foo-x` resolved after its
base name `foo` is already registered: the state is returned unchanged and
`foo-x` is never registered). -/
theorem c5_split_alias_witness :
    (getPackageRecursive splitWorld false 8 "foo-a" true false {} = some
      ((getPackageRecursive splitWorld false 8 "foo-a" true false {}).getD {})) ∧
    lookupAssoc (State.registry {}) "foo-a" = none ∧
    splitWorld.official "foo-a" = none ∧
    "foo-a" ∈ splitWorld.localSources ∧
    lookupAssoc (State.registry {}) (localNode splitWorld {} "foo-a" false).name = none ∧
    (lookupAssoc ((getPackageRecursive splitWorld false 8 "foo-a" true false {}).getD {}).registry
        "foo-a" = some 0 ∧
     lookupAssoc ((getPackageRecursive splitWorld false 8 "foo-a" true false {}).getD {}).registry
        (localNode splitWorld {} "foo-a" false).name = some 0 ∧
     getPkg ((getPackageRecursive splitWorld false 8 "foo-a" true false {}).getD {}) 0 =
      some { localNode splitWorld {} "foo-a" false with explicit_build := false }) ∧
    (getPackageRecursive splitWorld2 false 8 "foo-x" true false split2Mid = some split2Mid) ∧
    lookupAssoc split2Mid.registry (localNode splitWorld2 split2Mid "foo-x" false).name = some 0 ∧
    (split2Mid = split2Mid ∧ lookupAssoc split2Mid.registry "foo-x" = none) := by
  refine ⟨by decide, by decide, by decide, by decide, by decide, ?_, by decide, by decide, ?_⟩
  · exact c5_split_alias_amended.1 splitWorld false 7 "foo-a" true false {}
      ((getPackageRecursive splitWorld false 8 "foo-a" true false {}).getD {})
      (by decide) (by decide) (by decide) (by decide) (by decide)
  · exact c5_split_alias_amended.2 splitWorld2 false 7 "foo-x" true false split2Mid split2Mid 0
      (by decide) (by decide) (by decide) (by decide) (by decide)

/-- `PackageSource.install` does nothing when the build phase has not
succeeded or been skipped (the guard on line 540). -/
theorem sourceInstall_skip_notbuilt (w : World) (st : State) (i : Nat) (p : Package)
    (hp : getPkg st i = some p)
    (hbs : ¬(p.build_status = 1 ∨ p.build_status = 2)) :
    sourceInstall w st i = st := by
  have h1 : ¬ p.build_status = 1 := fun h => hbs (Or.inl h)
  have h2 : ¬ p.build_status = 2 := fun h => hbs (Or.inr h)
  rw [sourceInstall, hp]
  simp [h1, h2]

/-- `PackageSource.install` does nothing when the node is already
installed at this version or was installed by this run. -/
theorem sourceInstall_skip_installed (w : World) (st : State) (i : Nat) (p : Package)
    (hp : getPkg st i = some p)
    (hinst : p.installation_status = 1 ∨ p.installation_status = 3) :
    sourceInstall w st i = st := by
  rcases hinst with h | h <;> (rw [sourceInstall, hp]; simp [h])

theorem sourceInstallLoop_effect (w : World) (v : Option String) (i : Nat) :
    ∀ (names : List String) (st : State) (p : Package),
    getPkg st i = some p →
    (sourceInstallLoop w v i names st).registry = st.registry ∧
    (sourceInstallLoop w v i names st).store.length = st.store.length ∧
    (sourceInstallLoop w v i names st).builtLog = st.builtLog ∧
    (∀ j, j ≠ i → getPkg (sourceInstallLoop w v i names st) j = getPkg st j) ∧
    ∃ q, getPkg (sourceInstallLoop w v i names st) i = some q ∧
      q.kind = p.kind ∧ q.name = p.name ∧ q.dependencies = p.dependencies ∧
      q.make_dependencies = p.make_dependencies ∧ q.explicit_build = p.explicit_build ∧
      q.cache_available = p.cache_available ∧ q.is_make_dependency = p.is_make_dependency ∧
      q.split_package_names = p.split_package_names ∧ q.build_status = p.build_status ∧
      (q.error_info = p.error_info ∨ q.error_info.isSome = true) ∧
      (q.installation_status = p.installation_status ∨ q.installation_status = 3 ∨
        (q.installation_status = -1 ∧ q.error_info.isSome = true)) := by
  intro names
  induction names with
  | nil =>
    intro st p hp
    refine ⟨rfl, rfl, rfl, fun _ _ => rfl, p, hp, rfl, rfl, rfl, rfl, rfl, rfl, rfl, rfl, rfl, Or.inl rfl, Or.inl rfl⟩
  | cons n rest ih =>
    intro st p hp
    cases hok : w.pacmanUOk n with
    | true =>
      obtain ⟨st1, hstep, hp1, _, hb1, hr1, hl1, ho1⟩ :=
        sourceInstallLoop_cons_ok w v i n rest st p hp hok
      obtain ⟨hreg, hlen, hblog, hother, q, hq, hfacts⟩ :=
        ih st1 { p with installation_status := 3 } hp1
      rw [hstep]
      refine ⟨hreg.trans hr1, hlen.trans hl1, hblog.trans hb1, ?_, q, hq, ?_⟩
      · intro j hj
        rw [hother j hj, ho1 j hj]
      · obtain ⟨f1, f2, f3, f4, f5, f6, f7, f8, f9, f10, f11⟩ := hfacts
        refine ⟨f1, f2, f3, f4, f5, f6, f7, f8, f9, f10, ?_⟩
        rcases f11 with h | h | h
        · exact Or.inr (Or.inl h)
        · exact Or.inr (Or.inl h)
        · exact Or.inr (Or.inr h)
    | false =>
      rw [sourceInstallLoop_cons_fail w v i n rest st p hp hok]
      refine ⟨rfl, storeLen_setPkg _ i _, rfl, ?_, ?_⟩
      · intro j hj
        exact getPkg_setPkg_other _ i j _ (fun he => hj he.symm)
      · refine ⟨_, getPkg_setPkg_self _ i _ p hp, rfl, rfl, rfl, rfl, rfl, rfl, rfl, rfl, rfl, ?_, ?_⟩
        · exact Or.inr rfl
        · exact Or.inr (Or.inr ⟨rfl, rfl⟩)

theorem sourceInstall_effect (w : World) (st : State) (i : Nat) (p : Package)
    (hp : getPkg st i = some p) :
    (sourceInstall w st i).registry = st.registry ∧
    (sourceInstall w st i).store.length = st.store.length ∧
    (sourceInstall w st i).builtLog = st.builtLog ∧
    (∀ j, j ≠ i → getPkg (sourceInstall w st i) j = getPkg st j) ∧
    ∃ q, getPkg (sourceInstall w st i) i = some q ∧
      q.kind = p.kind ∧ q.name = p.name ∧ q.dependencies = p.dependencies ∧
      q.make_dependencies = p.make_dependencies ∧ q.explicit_build = p.explicit_build ∧
      q.cache_available = p.cache_available ∧ q.is_make_dependency = p.is_make_dependency ∧
      q.split_package_names = p.split_package_names ∧ q.build_status = p.build_status ∧
      (q.error_info = p.error_info ∨ q.error_info.isSome = true) ∧
      (q.installation_status = p.installation_status ∨ q.installation_status = 3 ∨
        (q.installation_status = -1 ∧ q.error_info.isSome = true)) := by
  by_cases hel : ¬(p.installation_status = 1 ∨ p.installation_status = 3)
      ∧ (p.build_status = 1 ∨ p.build_status = 2)
  · have hunf : sourceInstall w st i = sourceInstallLoop w p.version i
        (match p.split_package_names with
          | some (n :: rest) => n :: rest
          | _ => [p.name]) st := by
      have h1 : (!(p.installation_status = 1 || p.installation_status = 3)
          && (p.build_status = 1 || p.build_status = 2)) = true := by
        simp only [Bool.and_eq_true, Bool.not_eq_true', Bool.or_eq_false_iff,
          Bool.or_eq_true, decide_eq_true_eq, decide_eq_false_iff_not]
        exact ⟨⟨fun h => hel.1 (Or.inl h), fun h => hel.1 (Or.inr h)⟩, hel.2⟩
      rw [sourceInstall, hp]
      simp only [h1, if_true]
    rw [hunf]
    exact sourceInstallLoop_effect w p.version i _ st p hp
  · have hid : sourceInstall w st i = st := by
      rcases Decidable.not_and_iff_or_not.mp hel with h | h
      · exact sourceInstall_skip_installed w st i p hp (Decidable.not_not.mp h)
      · exact sourceInstall_skip_notbuilt w st i p hp h
    rw [hid]
    exact ⟨rfl, rfl, rfl, fun _ _ => rfl, p, hp, rfl, rfl, rfl, rfl, rfl, rfl, rfl, rfl, rfl, Or.inl rfl, Or.inl rfl⟩

theorem buildAndRecord_effect (w : World) (st : State) (i : Nat) (p : Package)
    (hp : getPkg st i = some p) (hbs : p.build_status = 0) :
    (buildAndRecord w st i).registry = st.registry ∧
    (buildAndRecord w st i).store.length = st.store.length ∧
    (buildAndRecord w st i).builtLog = st.builtLog ++ [i] ∧
    (∀ j, j ≠ i → getPkg (buildAndRecord w st i) j = getPkg st j) ∧
    ((w.makepkgOk p.name = true ∧
        getPkg (buildAndRecord w st i) i = some
          { (if p.build_from_git then { p with version := some (w.gitVersion p.name) } else p) with
            build_status := 1 }) ∨
     (w.makepkgOk p.name = false ∧
        getPkg (buildAndRecord w st i) i = some
          { setError p ("Failed to build package " ++ p.name) with build_status := 3 })) := by
  cases hok : w.makepkgOk p.name with
  | false =>
    have hdm : doMakepkg w st i =
        (setPkg { st with builtLog := st.builtLog ++ [i] } i
          (setError p ("Failed to build package " ++ p.name)), false) := by
      rw [doMakepkg, hp]
      simp [hok]
    have hp1 : getPkg (doMakepkg w st i).1 i = some (setError p ("Failed to build package " ++ p.name)) := by
      rw [hdm]
      exact getPkg_setPkg_self _ i _ p hp
    have hres : buildAndRecord w st i =
        setPkg (doMakepkg w st i).1 i
          { setError p ("Failed to build package " ++ p.name) with build_status := 3 } := by
      rw [buildAndRecord, hp1, hdm]
      rfl
    rw [hres, hdm]
    refine ⟨rfl, by simp [setPkg], rfl, ?_, Or.inr ⟨rfl, ?_⟩⟩
    · intro j hj
      rw [getPkg_setPkg_other _ i j _ (fun he => hj he.symm),
        getPkg_setPkg_other _ i j _ (fun he => hj he.symm)]
      rfl
    · exact getPkg_setPkg_self _ i _ _ (getPkg_setPkg_self _ i _ p hp)
  | true =>
    set pg : Package := if p.build_from_git then { p with version := some (w.gitVersion p.name) } else p
      with hpg
    have hbsg : pg.build_status = 0 := by
      rw [hpg]
      by_cases hg : p.build_from_git <;> simp [hg, hbs]
    have hdm : doMakepkg w st i =
        (if pg.is_make_dependency then
          sourceInstall w (setPkg { st with builtLog := st.builtLog ++ [i] } i pg) i
         else setPkg { st with builtLog := st.builtLog ++ [i] } i pg, true) := by
      rw [doMakepkg, hp]
      by_cases hg : p.build_from_git
      · simp only [hok, Bool.not_true, if_false, if_true, hg, if_pos, hpg]
        simp [hg]
      · simp only [hpg]
        simp [hok, hg]
    have hpset : getPkg (setPkg { st with builtLog := st.builtLog ++ [i] } i pg) i = some pg :=
      getPkg_setPkg_self _ i _ p hp
    have hsi : (if pg.is_make_dependency then
          sourceInstall w (setPkg { st with builtLog := st.builtLog ++ [i] } i pg) i
        else setPkg { st with builtLog := st.builtLog ++ [i] } i pg) =
        setPkg { st with builtLog := st.builtLog ++ [i] } i pg := by
      by_cases hmd : pg.is_make_dependency
      · rw [if_pos hmd]
        exact sourceInstall_skip_notbuilt w _ i pg hpset
          (by rw [hbsg]; intro hc; rcases hc with hc | hc <;> exact Nat.noConfusion hc)
      · rw [if_neg hmd]
    have hdm2 : doMakepkg w st i = (setPkg { st with builtLog := st.builtLog ++ [i] } i pg, true) := by
      rw [hdm, hsi]
    have hres : buildAndRecord w st i =
        setPkg (setPkg { st with builtLog := st.builtLog ++ [i] } i pg) i
          { pg with build_status := 1 } := by
      rw [buildAndRecord, hdm2]
      simp only []
      rw [show getPkg (setPkg { st with builtLog := st.builtLog ++ [i] } i pg) i = some pg from hpset]
      rfl
    rw [hres]
    refine ⟨rfl, by simp [setPkg], rfl, ?_, Or.inl ⟨rfl, ?_⟩⟩
    · intro j hj
      rw [getPkg_setPkg_other _ i j _ (fun he => hj he.symm),
        getPkg_setPkg_other _ i j _ (fun he => hj he.symm)]
      rfl
    · exact getPkg_setPkg_self _ i _ _ hpset

theorem installationStatusOf_nonneg (db : List (String × String)) (p : Package) :
    0 ≤ installationStatusOf db p := by
  rw [installationStatusOf]
  cases lookupAssoc db p.name with
  | none => exact le_refl 0
  | some v =>
    by_cases h : p.version = some v <;> simp [h]

theorem errInv_pointwise (st : State)
    (h : ∀ j q, getPkg st j = some q → q.installation_status < 0 → q.error_info.isSome = true) :
    ErrInv st := by
  intro p hp hneg
  obtain ⟨j, hj⟩ := List.mem_iff_get?.mp hp
  exact h j p hj hneg

/-- Package a local single-node operation into `BuildPres`: the operation
keeps the registry, the store size, at most appends to the build log,
touches only node `i`, evolves that node, leaves it alone when it is
settled, and maintains the error invariant there. -/
theorem buildPres_of_local_op (ia : Bool) (st st' : State) (i : Nat) (p q : Package)
    (hp : getPkg st i = some p) (hq : getPkg st' i = some q)
    (hreg : st'.registry = st.registry) (hlen : st'.store.length = st.store.length)
    (hlog : ∃ l, st'.builtLog = st.builtLog ++ l)
    (hother : ∀ j, j ≠ i → getPkg st' j = getPkg st j)
    (hev : NodeEvolves p q)
    (hsettled : Settled ia p → q = p)
    (herrinv : ErrInv st → (q.installation_status < 0 → q.error_info.isSome = true)) :
    BuildPres ia st st' := by
  refine ⟨hreg, hlen, hlog, ?_, ?_, ?_⟩
  · intro j r hr
    by_cases hj : j = i
    · subst hj
      rw [hr] at hp
      cases hp
      exact ⟨q, hq, hev⟩
    · exact ⟨r, by rw [hother j hj]; exact hr, nodeEvolves_refl r⟩
  · intro j r hr hs
    by_cases hj : j = i
    · subst hj
      rw [hr] at hp
      cases hp
      rw [hq, hsettled hs]
    · rw [hother j hj]
      exact hr
  · intro hinv
    refine errInv_pointwise st' ?_
    intro j r hr
    by_cases hj : j = i
    · subst hj
      rw [hr] at hq
      cases hq
      exact herrinv hinv
    · rw [hother j hj] at hr
      exact hinv r (List.get?_mem hr)

/-- The dependency loop, under a recursion obeying `BuildPres`, either
completes with `BuildPres` or returns after stamping `build_status = 4`
onto node `i` of a `BuildPres`-reachable intermediate state. -/
theorem depLoop_pres (ia : Bool) (f : String → State → Option State)
    (hf : ∀ n s s', f n s = some s' → BuildPres ia s s') (i : Nat) :
    ∀ (deps : List String) (ch : Bool) (st : State) (r : DepLoopResult),
    depLoop f i deps ch st = some r →
    (∀ st1, r = DepLoopResult.returned st1 →
      ∃ stm, BuildPres ia st stm ∧ st1 = setBuildStatus stm i 4) ∧
    (∀ st1 ch1, r = DepLoopResult.completed st1 ch1 → BuildPres ia st st1) := by
  intro deps
  induction deps with
  | nil =>
    intro ch st r h
    rw [depLoop] at h
    cases h
    constructor
    · intro st1 h1
      exact DepLoopResult.noConfusion h1
    · intro st1 ch1 h1
      cases h1
      exact buildPres_refl ia st
  | cons d rest ih =>
    intro ch st r h
    rw [depLoop] at h
    cases hlook : lookupAssoc st.registry d with
    | none => rw [hlook] at h; exact Option.noConfusion h
    | some di =>
      simp only [hlook] at h
      cases hstep : f d st with
      | none => simp only [hstep] at h; exact Option.noConfusion h
      | some sd =>
        simp only [hstep] at h
        have hpres : BuildPres ia st sd := hf d st sd hstep
        cases hq : getPkg sd di with
        | none => simp only [hq] at h; exact Option.noConfusion h
        | some q =>
          simp only [hq] at h
          by_cases herr : q.error_info.isSome
          · rw [if_pos herr] at h
            cases h
            constructor
            · intro st1 h1
              cases h1
              exact ⟨sd, hpres, rfl⟩
            · intro st1 ch1 h1
              exact DepLoopResult.noConfusion h1
          · rw [if_neg herr] at h
            rcases ih _ _ _ h with ⟨hret, hcomp⟩
            constructor
            · intro st1 h1
              obtain ⟨stm, hm, he⟩ := hret st1 h1
              exact ⟨stm, buildPres_trans hpres hm, he⟩
            · intro st1 ch1 h1
              exact buildPres_trans hpres (hcomp st1 ch1 h1)

theorem setBuildStatus_eq (st : State) (i : Nat) (b : Nat) (p : Package)
    (hp : getPkg st i = some p) :
    setBuildStatus st i b = setPkg st i { p with build_status := b } := by
  rw [setBuildStatus, hp]

/-- Effect of `buildAndRecord` on a node in an arbitrary state (no
assumption on its current `build_status`): the build log gains `i`, only
node `i` changes, its construction-time fields survive, its final
`build_status` is 1 or 3, its error either survives or a new error is
recorded, and its installation status moves within the allowed values. -/
theorem buildAndRecord_effect_general (w : World) (st : State) (i : Nat) (p : Package)
    (hp : getPkg st i = some p) :
    (buildAndRecord w st i).registry = st.registry ∧
    (buildAndRecord w st i).store.length = st.store.length ∧
    (buildAndRecord w st i).builtLog = st.builtLog ++ [i] ∧
    (∀ j, j ≠ i → getPkg (buildAndRecord w st i) j = getPkg st j) ∧
    ∃ q, getPkg (buildAndRecord w st i) i = some q ∧
      q.kind = p.kind ∧ q.name = p.name ∧ q.dependencies = p.dependencies ∧
      q.make_dependencies = p.make_dependencies ∧ q.explicit_build = p.explicit_build ∧
      q.cache_available = p.cache_available ∧ q.is_make_dependency = p.is_make_dependency ∧
      q.split_package_names = p.split_package_names ∧
      (q.build_status = 1 ∨ q.build_status = 3) ∧
      (q.error_info = p.error_info ∨ q.error_info.isSome = true) ∧
      (q.installation_status = p.installation_status ∨ q.installation_status = 3 ∨
        (q.installation_status = -1 ∧ q.error_info.isSome = true)) := by
  cases hok : w.makepkgOk p.name with
  | false =>
    have hdm : doMakepkg w st i =
        (setPkg { st with builtLog := st.builtLog ++ [i] } i
          (setError p ("Failed to build package " ++ p.name)), false) := by
      rw [doMakepkg, hp]
      simp [hok]
    have hp1 : getPkg (doMakepkg w st i).1 i =
        some (setError p ("Failed to build package " ++ p.name)) := by
      rw [hdm]
      exact getPkg_setPkg_self _ i _ p hp
    have hres : buildAndRecord w st i =
        setPkg (doMakepkg w st i).1 i
          { setError p ("Failed to build package " ++ p.name) with build_status := 3 } := by
      rw [buildAndRecord, hp1, hdm]
      rfl
    rw [hres, hdm]
    refine ⟨rfl, by simp [setPkg], rfl, ?_, ?_⟩
    · intro j hj
      rw [getPkg_setPkg_other _ i j _ (fun he => hj he.symm),
        getPkg_setPkg_other _ i j _ (fun he => hj he.symm)]
      rfl
    · refine ⟨_, getPkg_setPkg_self _ i _ _ (getPkg_setPkg_self _ i _ p hp),
        rfl, rfl, rfl, rfl, rfl, rfl, rfl, rfl, Or.inr rfl, Or.inr rfl, Or.inl rfl⟩
  | true =>
    set pg : Package := if p.build_from_git then { p with version := some (w.gitVersion p.name) } else p
      with hpg
    have hfg : pg.kind = p.kind ∧ pg.name = p.name ∧ pg.dependencies = p.dependencies ∧
        pg.make_dependencies = p.make_dependencies ∧ pg.explicit_build = p.explicit_build ∧
        pg.cache_available = p.cache_available ∧ pg.is_make_dependency = p.is_make_dependency ∧
        pg.split_package_names = p.split_package_names ∧ pg.build_status = p.build_status ∧
        pg.error_info = p.error_info ∧ pg.installation_status = p.installation_status := by
      rw [hpg]
      by_cases hg : p.build_from_git <;> simp [hg]
    have hdm : doMakepkg w st i =
        (if pg.is_make_dependency then
          sourceInstall w (setPkg { st with builtLog := st.builtLog ++ [i] } i pg) i
         else setPkg { st with builtLog := st.builtLog ++ [i] } i pg, true) := by
      rw [doMakepkg, hp]
      by_cases hg : p.build_from_git
      · simp only [hok, hpg]
        simp [hg]
      · simp only [hpg]
        simp [hok, hg]
    have hpset : getPkg (setPkg { st with builtLog := st.builtLog ++ [i] } i pg) i = some pg :=
      getPkg_setPkg_self _ i _ p hp
    obtain ⟨sreg, slen, slog, sother, q', hq', sf1, sf2, sf3, sf4, sf5, sf6, sf7, sf8, sf9, sf10, sf11⟩ :=
      sourceInstall_effect w (setPkg { st with builtLog := st.builtLog ++ [i] } i pg) i pg hpset
    have hmid : ∃ stm, doMakepkg w st i = (stm, true) ∧
        stm.registry = st.registry ∧ stm.store.length = st.store.length ∧
        stm.builtLog = st.builtLog ++ [i] ∧
        (∀ j, j ≠ i → getPkg stm j = getPkg st j) ∧
        ∃ qm, getPkg stm i = some qm ∧
          qm.kind = p.kind ∧ qm.name = p.name ∧ qm.dependencies = p.dependencies ∧
          qm.make_dependencies = p.make_dependencies ∧ qm.explicit_build = p.explicit_build ∧
          qm.cache_available = p.cache_available ∧ qm.is_make_dependency = p.is_make_dependency ∧
          qm.split_package_names = p.split_package_names ∧
          (qm.error_info = p.error_info ∨ qm.error_info.isSome = true) ∧
          (qm.installation_status = p.installation_status ∨ qm.installation_status = 3 ∨
            (qm.installation_status = -1 ∧ qm.error_info.isSome = true)) := by
      by_cases hmd : pg.is_make_dependency
      · refine ⟨_, by rw [hdm, if_pos hmd], ?_, ?_, ?_, ?_, q', hq', ?_⟩
        · rw [sreg]; rfl
        · rw [slen, storeLen_setPkg]
        · rw [slog]; rfl
        · intro j hj
          rw [sother j hj, getPkg_setPkg_other _ i j _ (fun he => hj he.symm)]
          rfl
        · obtain ⟨g1, g2, g3, g4, g5, g6, g7, g8, g9, g10, g11⟩ := hfg
          refine ⟨sf1.trans g1, sf2.trans g2, sf3.trans g3, sf4.trans g4, sf5.trans g5,
            sf6.trans g6, sf7.trans g7, sf8.trans g8, ?_, ?_⟩
          · rcases sf10 with h | h
            · exact Or.inl (h.trans g10)
            · exact Or.inr h
          · rcases sf11 with h | h | h
            · exact Or.inl (h.trans g11)
            · exact Or.inr (Or.inl h)
            · exact Or.inr (Or.inr h)
      · refine ⟨setPkg { st with builtLog := st.builtLog ++ [i] } i pg,
          by rw [hdm, if_neg hmd], rfl, storeLen_setPkg _ i _, rfl, ?_, pg, hpset, ?_⟩
        · intro j hj
          rw [getPkg_setPkg_other _ i j _ (fun he => hj he.symm)]
          rfl
        · obtain ⟨g1, g2, g3, g4, g5, g6, g7, g8, g9, g10, g11⟩ := hfg
          exact ⟨g1, g2, g3, g4, g5, g6, g7, g8, Or.inl g10, Or.inl g11⟩
    obtain ⟨stm, hstm, mreg, mlen, mlog, mother, qm, hqm, m1, m2, m3, m4, m5, m6, m7, m8, m10, m11⟩ := hmid
    have hres : buildAndRecord w st i = setPkg stm i { qm with build_status := 1 } := by
      simp [buildAndRecord, hstm, hqm]
    rw [hres]
    refine ⟨mreg, by rw [storeLen_setPkg, mlen], by simpa [setPkg] using mlog, ?_, ?_⟩
    · intro j hj
      rw [getPkg_setPkg_other _ i j _ (fun he => hj he.symm), mother j hj]
    · exact ⟨_, getPkg_setPkg_self _ i _ qm hqm, m1, m2, m3, m4, m5, m6, m7, m8,
        Or.inl rfl, m10, m11⟩

/-- Extend a `BuildPres` chain by one more operation that touches only the
frame node `i`, when the frame node started as an unprocessed source node
(no error, `build_status = 0`, hence neither frozen nor settled). -/
theorem buildPres_extend_local (ia : Bool) (st stm st' : State) (i : Nat) (p pm q : Package)
    (hbase : BuildPres ia st stm)
    (hp : getPkg st i = some p)
    (hkind : p.kind = PkgKind.source) (hbs : p.build_status = 0)
    (herr : p.error_info.isSome = false)
    (hpm : getPkg stm i = some pm)
    (hq : getPkg st' i = some q)
    (hreg : st'.registry = stm.registry) (hlen : st'.store.length = stm.store.length)
    (hlog : ∃ l, st'.builtLog = stm.builtLog ++ l)
    (hother : ∀ j, j ≠ i → getPkg st' j = getPkg stm j)
    (hfields : q.kind = pm.kind ∧ q.name = pm.name ∧ q.dependencies = pm.dependencies ∧
      q.make_dependencies = pm.make_dependencies ∧ q.explicit_build = pm.explicit_build ∧
      q.cache_available = pm.cache_available ∧ q.is_make_dependency = pm.is_make_dependency ∧
      q.split_package_names = pm.split_package_names)
    (herrinvq : ErrInv stm → q.installation_status < 0 → q.error_info.isSome = true) :
    BuildPres ia st st' := by
  obtain ⟨breg, blen, ⟨bl, hbl⟩, bev, bsettled, binv⟩ := hbase
  obtain ⟨bl2, hbl2⟩ := hlog
  refine ⟨hreg.trans breg, hlen.trans blen, ⟨bl ++ bl2, by rw [hbl2, hbl, List.append_assoc]⟩, ?_, ?_, ?_⟩
  · intro j r hr
    by_cases hj : j = i
    · subst hj
      rw [hr] at hp
      cases hp
      obtain ⟨pm', hpm', hev⟩ := bev j p hr
      rw [hpm] at hpm'
      cases hpm'
      obtain ⟨e1, e2, e3, e4, e5, e6, e7, e8, _, _⟩ := hev
      obtain ⟨f1, f2, f3, f4, f5, f6, f7, f8⟩ := hfields
      refine ⟨q, hq, f1.trans e1, f2.trans e2, f3.trans e3, f4.trans e4, f5.trans e5,
        f6.trans e6, f7.trans e7, f8.trans e8, ?_, ?_⟩
      · intro hcontra
        rw [hcontra] at herr
        exact Bool.noConfusion herr
      · intro hcontra
        exact absurd hbs hcontra
    · obtain ⟨r', hr', hev⟩ := bev j r hr
      exact ⟨r', by rw [hother j hj]; exact hr', hev⟩
  · intro j r hr hs
    by_cases hj : j = i
    · subst hj
      rw [hr] at hp
      cases hp
      obtain ⟨hse, hss, _⟩ := hs
      exact absurd (hss hkind) (by simp [hbs])
    · rw [hother j hj]
      exact bsettled j r hr hs
  · intro hinv
    have hinvm : ErrInv stm := binv hinv
    refine errInv_pointwise st' ?_
    intro j r hr
    by_cases hj : j = i
    · subst hj
      rw [hr] at hq
      cases hq
      exact herrinvq hinvm
    · rw [hother j hj] at hr
      exact hinvm r (List.get?_mem hr)

/-- Extend a `BuildPres` chain across one decision-phase operation on the
frame node (`buildAndRecord`, `setBuildStatus`, or `sourceInstall`): the
operation's effect on the node fits the common field/error/status shape,
and the "nonnegative status or recorded error" invariant of the frame node
is carried along. -/
theorem buildPres_extend_step (ia : Bool) (st st2 st3 : State) (i : Nat) (p q2 : Package)
    (hbase : BuildPres ia st st2)
    (hp : getPkg st i = some p) (hkind : p.kind = PkgKind.source)
    (hbs : p.build_status = 0) (herr : p.error_info.isSome = false)
    (hq2 : getPkg st2 i = some q2)
    (hok2 : 0 ≤ q2.installation_status ∨ q2.error_info.isSome = true)
    (hreg : st3.registry = st2.registry) (hlen : st3.store.length = st2.store.length)
    (hlog : ∃ l, st3.builtLog = st2.builtLog ++ l)
    (hother : ∀ j, j ≠ i → getPkg st3 j = getPkg st2 j)
    (hq3ex : ∃ q3, getPkg st3 i = some q3 ∧
      q3.kind = q2.kind ∧ q3.name = q2.name ∧ q3.dependencies = q2.dependencies ∧
      q3.make_dependencies = q2.make_dependencies ∧ q3.explicit_build = q2.explicit_build ∧
      q3.cache_available = q2.cache_available ∧ q3.is_make_dependency = q2.is_make_dependency ∧
      q3.split_package_names = q2.split_package_names ∧
      (q3.error_info = q2.error_info ∨ q3.error_info.isSome = true) ∧
      (q3.installation_status = q2.installation_status ∨ q3.installation_status = 3 ∨
        (q3.installation_status = -1 ∧ q3.error_info.isSome = true))) :
    BuildPres ia st st3 ∧ ∃ q3, getPkg st3 i = some q3 ∧
      (0 ≤ q3.installation_status ∨ q3.error_info.isSome = true) := by
  obtain ⟨q3, hq3, f1, f2, f3, f4, f5, f6, f7, f8, ferr, finst⟩ := hq3ex
  have hok3 : 0 ≤ q3.installation_status ∨ q3.error_info.isSome = true := by
    rcases finst with hi | hi | ⟨hi, he⟩
    · rcases hok2 with h | h
      · exact Or.inl (hi ▸ h)
      · rcases ferr with he | he
        · exact Or.inr (he ▸ h)
        · exact Or.inr he
    · exact Or.inl (by rw [hi]; decide)
    · exact Or.inr he
  refine ⟨buildPres_extend_local ia st st2 st3 i p q2 q3 hbase hp hkind hbs herr hq2 hq3
    hreg hlen hlog hother ⟨f1, f2, f3, f4, f5, f6, f7, f8⟩ ?_, q3, hq3, hok3⟩
  intro _ hneg
  rcases hok3 with h | h
  · exact absurd hneg (not_lt.mpr h)
  · exact h

/-- Master preservation theorem for the orchestrator: any successful run of
`build_package_recursive` (at any fuel) preserves the registry and the
store size, only appends to the build log, evolves every node, leaves
settled nodes untouched, and maintains the error invariant. -/
theorem buildRec_pres (w : World) (rb : Nat) (ia : Bool) :
    ∀ (fuel : Nat) (n : String) (st st' : State),
    buildPackageRecursive w rb ia fuel n st = some st' → BuildPres ia st st' := by
  intro fuel
  induction fuel with
  | zero =>
    intro n st st' h
    exact Option.noConfusion h
  | succ fuel ih =>
    intro n st st' h
    rw [buildPackageRecursive_succ, buildVisit] at h
    cases hlook : lookupAssoc st.registry n with
    | none =>
      simp only [hlook] at h
      exact Option.noConfusion h
    | some i =>
      simp only [hlook] at h
      cases hp : getPkg st i with
      | none =>
        simp only [hp] at h
        exact Option.noConfusion h
      | some p =>
        simp only [hp] at h
        by_cases herr : p.error_info.isSome = true
        · rw [if_pos herr] at h
          cases h
          exact buildPres_refl ia st
        · have herr' : p.error_info.isSome = false := by
            cases he : p.error_info.isSome
            · rfl
            · exact absurd he herr
          rw [if_neg herr] at h
          by_cases hsb : (p.kind = PkgKind.source && p.build_status ≠ 0 : Bool) = true
          · rw [if_pos hsb] at h
            cases h
            exact buildPres_refl ia st
          · rw [if_neg hsb] at h
            by_cases hpac : p.kind = PkgKind.pacman
            · rw [if_pos hpac] at h
              by_cases hterm : (p.installation_status < 0 || p.installation_status = 3 : Bool) = true
              · rw [if_pos hterm] at h
                cases h
                exact buildPres_refl ia st
              · have hni : ¬ p.installation_status < 0 := fun hc => hterm (by simp [hc])
                have hn3 : ¬ p.installation_status = 3 := fun hc => hterm (by simp [hc])
                rw [if_neg hterm] at h
                by_cases hflag : (p.is_make_dependency || ia) = true
                · rw [if_pos hflag] at h
                  cases h
                  by_cases hinst1 : p.installation_status = 1
                  · rw [pacmanInstall_skip w st i p hp (Or.inl hinst1)]
                    exact buildPres_refl ia st
                  · have hno : ¬(p.installation_status = 1 ∨ p.installation_status = 3) :=
                      fun hc => hc.elim hinst1 hn3
                    obtain ⟨ereg, elen, elog, eother, ecase⟩ :=
                      pacmanInstall_effect w st i p hp hno
                    rcases ecase with ⟨hok, hqi⟩ | ⟨hok, hqi⟩
                    · refine buildPres_of_local_op ia st _ i p _ hp hqi ereg elen
                        ⟨[], by rw [elog, List.append_nil]⟩ eother
                        ⟨rfl, rfl, rfl, rfl, rfl, rfl, rfl, rfl, ?_, fun _ => rfl⟩ ?_ ?_
                      · intro hc
                        exact Bool.noConfusion (herr' ▸ hc)
                      · intro hs
                        obtain ⟨_, _, hpc⟩ := hs
                        rcases hpc hpac with hc | hc | ⟨hmk, hia⟩
                        · exact absurd hc hinst1
                        · exact absurd hc hn3
                        · rw [hmk, hia] at hflag
                          exact absurd hflag (by decide)
                      · intro _ hneg
                        simp at hneg
                    · refine buildPres_of_local_op ia st _ i p _ hp hqi ereg elen
                        ⟨[], by rw [elog, List.append_nil]⟩ eother
                        ⟨rfl, rfl, rfl, rfl, rfl, rfl, rfl, rfl, ?_, fun _ => rfl⟩ ?_ ?_
                      · intro hc
                        exact Bool.noConfusion (herr' ▸ hc)
                      · intro hs
                        obtain ⟨_, _, hpc⟩ := hs
                        rcases hpc hpac with hc | hc | ⟨hmk, hia⟩
                        · exact absurd hc hinst1
                        · exact absurd hc hn3
                        · rw [hmk, hia] at hflag
                          exact absurd hflag (by decide)
                      · intro _ _
                        rfl
                · rw [if_neg hflag] at h
                  cases h
                  exact buildPres_refl ia st
            · rw [if_neg hpac] at h
              have hkind : p.kind = PkgKind.source := by
                cases hk : p.kind with
                | source => rfl
                | pacman => exact absurd hk hpac
              have hbs : p.build_status = 0 := by
                by_contra hc
                exact hsb (by simp [hkind, hc])
              cases hdl : depLoop (buildPackageRecursive w rb ia fuel) i
                  (p.dependencies ++ p.make_dependencies) false st with
              | none =>
                simp only [hdl] at h
                exact Option.noConfusion h
              | some r =>
                simp only [hdl] at h
                have hdp := depLoop_pres ia (buildPackageRecursive w rb ia fuel)
                  (fun nn s s' hh => ih nn s s' hh) i
                  (p.dependencies ++ p.make_dependencies) false st r hdl
                cases r with
                | returned st1 =>
                  cases h
                  obtain ⟨stm, hbasem, hst1⟩ := hdp.1 _ rfl
                  obtain ⟨pm, hpm, _⟩ := hbasem.2.2.2.1 i p hp
                  obtain ⟨sreg, slen, slog, sother, sself⟩ :=
                    setBuildStatus_effect stm i 4 pm hpm
                  rw [hst1]
                  refine buildPres_extend_local ia st stm _ i p pm _ hbasem hp hkind hbs
                    herr' hpm sself sreg slen ⟨[], by rw [slog, List.append_nil]⟩ sother
                    ⟨rfl, rfl, rfl, rfl, rfl, rfl, rfl, rfl⟩ ?_
                  intro hinv hneg
                  exact hinv pm (List.get?_mem hpm) hneg
                | completed st1 ch =>
                  have hbase1 : BuildPres ia st st1 := hdp.2 st1 ch rfl
                  obtain ⟨q1, hq1, _⟩ := hbase1.2.2.2.1 i p hp
                  simp only [hq1] at h
                  have hq2 : getPkg (setPkg st1 i (refreshInstallationStatus st1.installedDB q1)) i
                      = some (refreshInstallationStatus st1.installedDB q1) :=
                    getPkg_setPkg_self st1 i _ q1 hq1
                  have hbase2 : BuildPres ia st
                      (setPkg st1 i (refreshInstallationStatus st1.installedDB q1)) := by
                    refine buildPres_extend_local ia st st1 _ i p q1 _ hbase1 hp hkind hbs
                      herr' hq1 hq2 rfl (storeLen_setPkg st1 i _) ⟨[], by simp [setPkg]⟩
                      (fun j hj => getPkg_setPkg_other st1 i j _ (fun he => hj he.symm))
                      ⟨rfl, rfl, rfl, rfl, rfl, rfl, rfl, rfl⟩ ?_
                    intro _ hneg
                    exact absurd hneg (not_lt.mpr (installationStatusOf_nonneg st1.installedDB q1))
                  have hok2 : 0 ≤ (refreshInstallationStatus st1.installedDB q1).installation_status
                      ∨ (refreshInstallationStatus st1.installedDB q1).error_info.isSome = true :=
                    Or.inl (installationStatusOf_nonneg st1.installedDB q1)
                  simp only [hq2] at h
                  have hstep3 : ∀ st3 : State,
                      (st3 = buildAndRecord w (setPkg st1 i (refreshInstallationStatus st1.installedDB q1)) i ∨
                       st3 = setBuildStatus (setPkg st1 i (refreshInstallationStatus st1.installedDB q1)) i 2 ∨
                       st3 = setPkg st1 i (refreshInstallationStatus st1.installedDB q1)) →
                      BuildPres ia st st3 ∧ ∃ q3, getPkg st3 i = some q3 ∧
                        (0 ≤ q3.installation_status ∨ q3.error_info.isSome = true) := by
                    intro st3 hst3
                    rcases hst3 with hst3 | hst3 | hst3
                    · subst hst3
                      obtain ⟨breg, blen, blog, bother, q3, hq3, b1, b2, b3, b4, b5, b6, b7, b8, _, b10, b11⟩ :=
                        buildAndRecord_effect_general w _ i _ hq2
                      exact buildPres_extend_step ia st _ _ i p _ hbase2 hp hkind hbs herr'
                        hq2 hok2 breg blen ⟨[i], blog⟩ bother
                        ⟨q3, hq3, b1, b2, b3, b4, b5, b6, b7, b8, b10, b11⟩
                    · subst hst3
                      obtain ⟨sreg, slen, slog, sother, sself⟩ :=
                        setBuildStatus_effect _ i 2 _ hq2
                      exact buildPres_extend_step ia st _ _ i p _ hbase2 hp hkind hbs herr'
                        hq2 hok2 sreg slen ⟨[], by rw [slog, List.append_nil]⟩ sother
                        ⟨_, sself, rfl, rfl, rfl, rfl, rfl, rfl, rfl, rfl, Or.inl rfl, Or.inl rfl⟩
                    · subst hst3
                      exact ⟨hbase2, _, hq2, hok2⟩
                  have hfin : ∀ st3 : State, BuildPres ia st st3 →
                      (∃ q3, getPkg st3 i = some q3 ∧
                        (0 ≤ q3.installation_status ∨ q3.error_info.isSome = true)) →
                      some (if ia then sourceInstall w st3 i else st3) = some st' →
                      BuildPres ia st st' := by
                    intro st3 hbase3 ⟨q3, hq3, hok3⟩ heq
                    cases heq
                    cases ia with
                    | false => exact hbase3
                    | true =>
                      obtain ⟨ireg, ilen, ilog, iother, q4, hq4, i1, i2, i3, i4, i5, i6, i7, i8, _, i10, i11⟩ :=
                        sourceInstall_effect w st3 i q3 hq3
                      exact (buildPres_extend_step true st st3 _ i p q3 hbase3 hp hkind hbs
                        herr' hq3 hok3 ireg ilen ⟨[], by rw [ilog, List.append_nil]⟩ iother
                        ⟨q4, hq4, i1, i2, i3, i4, i5, i6, i7, i8, i10, i11⟩).1
                  by_cases hch : ch = true
                  · rw [hch] at h
                    simp only [if_pos rfl] at h
                    obtain ⟨hb3, hq3x⟩ := hstep3 _ (Or.inl rfl)
                    exact hfin _ hb3 hq3x h
                  · have hch' : ch = false := by
                      cases ch
                      · rfl
                      · exact absurd rfl hch
                    rw [hch'] at h
                    simp only [Bool.false_eq_true, if_false] at h
                    by_cases hrb0 : rb = 0
                    · rw [hrb0] at h
                      simp only [if_pos rfl] at h
                      by_cases hcav : (refreshInstallationStatus st1.installedDB q1).cache_available < 2
                      · rw [if_pos hcav] at h
                        obtain ⟨hb3, hq3x⟩ := hstep3 _ (Or.inl rfl)
                        exact hfin _ hb3 hq3x h
                      · rw [if_neg hcav] at h
                        obtain ⟨hb3, hq3x⟩ := hstep3 _ (Or.inr (Or.inl rfl))
                        exact hfin _ hb3 hq3x h
                    · rw [if_neg hrb0] at h
                      by_cases hrb1 : rb = 1
                      · rw [hrb1] at h
                        simp only [if_pos rfl] at h
                        by_cases hcav : ((refreshInstallationStatus st1.installedDB q1).cache_available < 2 ∨
                            (refreshInstallationStatus st1.installedDB q1).explicit_build = true)
                        · have hcav' : ((refreshInstallationStatus st1.installedDB q1).cache_available < 2 ||
                              (refreshInstallationStatus st1.installedDB q1).explicit_build : Bool) = true := by
                            rcases hcav with hc | hc
                            · simp [hc]
                            · simp [hc]
                          rw [if_pos hcav'] at h
                          obtain ⟨hb3, hq3x⟩ := hstep3 _ (Or.inl rfl)
                          exact hfin _ hb3 hq3x h
                        · have hcav' : ¬(((refreshInstallationStatus st1.installedDB q1).cache_available < 2 ||
                              (refreshInstallationStatus st1.installedDB q1).explicit_build : Bool) = true) := by
                            intro hc
                            rcases Bool.or_eq_true_iff.mp hc with hc' | hc'
                            · exact hcav (Or.inl (of_decide_eq_true hc'))
                            · exact hcav (Or.inr hc')
                          rw [if_neg hcav'] at h
                          obtain ⟨hb3, hq3x⟩ := hstep3 _ (Or.inr (Or.inl rfl))
                          exact hfin _ hb3 hq3x h
                      · rw [if_neg hrb1] at h
                        by_cases hrb2 : rb = 2
                        · rw [hrb2] at h
                          simp only [if_pos rfl] at h
                          obtain ⟨hb3, hq3x⟩ := hstep3 _ (Or.inl rfl)
                          exact hfin _ hb3 hq3x h
                        · rw [if_neg hrb2] at h
                          obtain ⟨hb3, hq3x⟩ := hstep3 _ (Or.inr (Or.inr rfl))
                          exact hfin _ hb3 hq3x h

theorem notMem_append {α : Type} {a : α} {l1 l2 : List α}
    (h1 : a ∉ l1) (h2 : a ∉ l2) : a ∉ l1 ++ l2 := by
  intro hm
  rcases List.mem_append.mp hm with hm | hm
  · exact h1 hm
  · exact h2 hm

theorem setBuildStatus_frame (st : State) (ix : Nat) (b : Nat) :
    (setBuildStatus st ix b).builtLog = st.builtLog ∧
    (setBuildStatus st ix b).registry = st.registry ∧
    ∀ j, j ≠ ix → getPkg (setBuildStatus st ix b) j = getPkg st j := by
  cases hp : getPkg st ix with
  | none =>
    rw [setBuildStatus, hp]
    exact ⟨rfl, rfl, fun _ _ => rfl⟩
  | some p =>
    rw [setBuildStatus, hp]
    exact ⟨rfl, rfl, fun j hj => getPkg_setPkg_other st ix j _ (fun he => hj he.symm)⟩

theorem sourceInstall_frame (w : World) (st : State) (ix : Nat) :
    (sourceInstall w st ix).builtLog = st.builtLog ∧
    ∀ j, j ≠ ix → getPkg (sourceInstall w st ix) j = getPkg st j := by
  cases hp : getPkg st ix with
  | none =>
    rw [sourceInstall, hp]
    exact ⟨rfl, fun _ _ => rfl⟩
  | some p =>
    obtain ⟨_, _, ilog, iother, _⟩ := sourceInstall_effect w st ix p hp
    exact ⟨ilog, iother⟩

/-- `AvoidClosed` survives any state change fitting `BuildPres`: the
registry is unchanged and dependency lists never change. -/
theorem avoidClosed_of_buildPres {ia : Bool} {st st' : State} {c : List String} {i : Nat}
    (hav : AvoidClosed st c i) (hbp : BuildPres ia st st') : AvoidClosed st' c i := by
  obtain ⟨hreg, hlen, _, hev, _, _⟩ := hbp
  obtain ⟨hclosed, hnoti⟩ := hav
  constructor
  · intro x hx j p hlook hp
    rw [hreg] at hlook
    have hlt : j < st.store.length := by
      by_contra hge
      have hnone : st'.store.get? j = none :=
        List.get?_eq_none.mpr (by rw [hlen]; exact Nat.le_of_not_lt hge)
      rw [show getPkg st' j = st'.store.get? j from rfl, hnone] at hp
      exact Option.noConfusion hp
    obtain ⟨p0, hp0⟩ : ∃ p0, getPkg st j = some p0 := by
      cases hq : st.store.get? j with
      | none => exact absurd (List.get?_eq_none.mp hq) (Nat.not_le_of_lt hlt)
      | some p0 => exact ⟨p0, hq⟩
    obtain ⟨q, hq, _, _, e3, e4, _⟩ := hev j p0 hp0
    rw [hp] at hq
    cases hq
    intro d hd
    rw [e3, e4] at hd
    exact hclosed x hx j p0 hlook hp0 d hd
  · intro x hx
    rw [hreg]
    exact hnoti x hx

/-- The dependency loop of a visit of node `ix`, when every dependency
name lies in an avoid-closed set `c` for node `i`, never changes node `i`
and never records `i` in the build log (its only own write is the
abort-write `build_status = 4` on `ix`). -/
theorem depLoop_avoid (ia : Bool) (f : String → State → Option State)
    (hfp : ∀ n s s', f n s = some s' → BuildPres ia s s')
    (hfa : ∀ n s s' (c : List String) (i : Nat), AvoidClosed s c i → n ∈ c →
      f n s = some s' → getPkg s' i = getPkg s i ∧
      ∃ l, s'.builtLog = s.builtLog ++ l ∧ i ∉ l)
    (c : List String) (i ix : Nat) :
    ∀ (deps : List String) (ch : Bool) (st : State) (r : DepLoopResult),
    (∀ d ∈ deps, d ∈ c) → AvoidClosed st c i →
    depLoop f ix deps ch st = some r →
    (∀ st1, r = DepLoopResult.returned st1 →
      ∃ stm, getPkg stm i = getPkg st i ∧
        (∃ l, stm.builtLog = st.builtLog ++ l ∧ i ∉ l) ∧
        AvoidClosed stm c i ∧ st1 = setBuildStatus stm ix 4) ∧
    (∀ st1 ch1, r = DepLoopResult.completed st1 ch1 →
      getPkg st1 i = getPkg st i ∧
      (∃ l, st1.builtLog = st.builtLog ++ l ∧ i ∉ l) ∧
      AvoidClosed st1 c i) := by
  intro deps
  induction deps with
  | nil =>
    intro ch st r hsub hav h
    rw [depLoop] at h
    cases h
    refine ⟨fun st1 h1 => DepLoopResult.noConfusion h1, fun st1 ch1 h1 => ?_⟩
    cases h1
    exact ⟨rfl, ⟨[], by simp, List.not_mem_nil i⟩, hav⟩
  | cons d rest ih =>
    intro ch st r hsub hav h
    rw [depLoop] at h
    cases hlook : lookupAssoc st.registry d with
    | none =>
      simp only [hlook] at h
      exact Option.noConfusion h
    | some di =>
      simp only [hlook] at h
      cases hfd : f d st with
      | none =>
        simp only [hfd] at h
        exact Option.noConfusion h
      | some s1 =>
        simp only [hfd] at h
        have hdc : d ∈ c := hsub d (List.mem_cons_self d rest)
        obtain ⟨hgi, l1, hl1, hni1⟩ := hfa d st s1 c i hav hdc hfd
        have hav1 : AvoidClosed s1 c i := avoidClosed_of_buildPres hav (hfp d st s1 hfd)
        cases hq : getPkg s1 di with
        | none =>
          simp only [hq] at h
          exact Option.noConfusion h
        | some q =>
          simp only [hq] at h
          by_cases herr : q.error_info.isSome = true
          · rw [if_pos herr] at h
            cases h
            refine ⟨fun st1 h1 => ?_, fun st1 ch1 h1 => DepLoopResult.noConfusion h1⟩
            cases h1
            exact ⟨s1, hgi, ⟨l1, hl1, hni1⟩, hav1, rfl⟩
          · rw [if_neg herr] at h
            have hres := ih (ch || (q.kind = PkgKind.source && q.build_status = 1)) s1 r
              (fun d' hd' => hsub d' (List.mem_cons_of_mem d hd')) hav1 h
            constructor
            · intro st1 h1
              obtain ⟨stm, hgi2, ⟨l2, hl2, hni2⟩, hav2, heq⟩ := hres.1 st1 h1
              exact ⟨stm, hgi2.trans hgi,
                ⟨l1 ++ l2, by rw [hl2, hl1, List.append_assoc], notMem_append hni1 hni2⟩,
                hav2, heq⟩
            · intro st1 ch1 h1
              obtain ⟨hgi2, ⟨l2, hl2, hni2⟩, hav2⟩ := hres.2 st1 ch1 h1
              exact ⟨hgi2.trans hgi,
                ⟨l1 ++ l2, by rw [hl2, hl1, List.append_assoc], notMem_append hni1 hni2⟩, hav2⟩

/-- Master avoidance theorem: orchestrating any name of an avoid-closed
set `c` for node `i` leaves node `i` untouched and never records `i` in
the build log. -/
theorem buildRec_avoid (w : World) (rb : Nat) (ia : Bool) :
    ∀ (fuel : Nat) (x : String) (st st' : State) (c : List String) (i : Nat),
    AvoidClosed st c i → x ∈ c →
    buildPackageRecursive w rb ia fuel x st = some st' →
    getPkg st' i = getPkg st i ∧ ∃ l, st'.builtLog = st.builtLog ++ l ∧ i ∉ l := by
  intro fuel
  induction fuel with
  | zero =>
    intro x st st' c i hav hx h
    exact Option.noConfusion h
  | succ fuel ih =>
    intro x st st' c i hav hx h
    rw [buildPackageRecursive_succ, buildVisit] at h
    cases hlook : lookupAssoc st.registry x with
    | none =>
      simp only [hlook] at h
      exact Option.noConfusion h
    | some ix =>
      have hixi : ix ≠ i := fun he => hav.2 x hx (he ▸ hlook)
      simp only [hlook] at h
      cases hp : getPkg st ix with
      | none =>
        simp only [hp] at h
        exact Option.noConfusion h
      | some p =>
        simp only [hp] at h
        by_cases herr : p.error_info.isSome = true
        · rw [if_pos herr] at h
          cases h
          exact ⟨rfl, ⟨[], by simp, List.not_mem_nil i⟩⟩
        · rw [if_neg herr] at h
          by_cases hsb : (p.kind = PkgKind.source && p.build_status ≠ 0 : Bool) = true
          · rw [if_pos hsb] at h
            cases h
            exact ⟨rfl, ⟨[], by simp, List.not_mem_nil i⟩⟩
          · rw [if_neg hsb] at h
            by_cases hpac : p.kind = PkgKind.pacman
            · rw [if_pos hpac] at h
              by_cases hterm : (p.installation_status < 0 || p.installation_status = 3 : Bool) = true
              · rw [if_pos hterm] at h
                cases h
                exact ⟨rfl, ⟨[], by simp, List.not_mem_nil i⟩⟩
              · rw [if_neg hterm] at h
                by_cases hflag : (p.is_make_dependency || ia) = true
                · rw [if_pos hflag] at h
                  cases h
                  by_cases hinst1 : p.installation_status = 1
                  · rw [pacmanInstall_skip w st ix p hp (Or.inl hinst1)]
                    exact ⟨rfl, ⟨[], by simp, List.not_mem_nil i⟩⟩
                  · have hn3 : ¬ p.installation_status = 3 := fun hc => hterm (by simp [hc])
                    obtain ⟨_, _, elog, eother, _⟩ := pacmanInstall_effect w st ix p hp
                      (fun hc => hc.elim hinst1 hn3)
                    exact ⟨eother i (fun he => hixi he.symm),
                      ⟨[], by rw [elog, List.append_nil], List.not_mem_nil i⟩⟩
                · rw [if_neg hflag] at h
                  cases h
                  exact ⟨rfl, ⟨[], by simp, List.not_mem_nil i⟩⟩
            · rw [if_neg hpac] at h
              have hsubdeps : ∀ d ∈ p.dependencies ++ p.make_dependencies, d ∈ c :=
                hav.1 x hx ix p hlook hp
              cases hdl : depLoop (buildPackageRecursive w rb ia fuel) ix
                  (p.dependencies ++ p.make_dependencies) false st with
              | none =>
                simp only [hdl] at h
                exact Option.noConfusion h
              | some r =>
                simp only [hdl] at h
                have hdla := depLoop_avoid ia (buildPackageRecursive w rb ia fuel)
                  (fun nn s s' hh => buildRec_pres w rb ia fuel nn s s' hh)
                  (fun nn s s' c' i' hav' hn' hh => ih nn s s' c' i' hav' hn' hh)
                  c i ix (p.dependencies ++ p.make_dependencies) false st r hsubdeps hav hdl
                have hdp := depLoop_pres ia (buildPackageRecursive w rb ia fuel)
                  (fun nn s s' hh => buildRec_pres w rb ia fuel nn s s' hh) ix
                  (p.dependencies ++ p.make_dependencies) false st r hdl
                cases r with
                | returned st1 =>
                  cases h
                  obtain ⟨stm, hgi, ⟨l1, hl1, hni1⟩, _, heq⟩ := hdla.1 _ rfl
                  obtain ⟨hlog4, _, hother4⟩ := setBuildStatus_frame stm ix 4
                  rw [heq]
                  exact ⟨(hother4 i (fun he => hixi he.symm)).trans hgi,
                    ⟨l1, by rw [hlog4, hl1], hni1⟩⟩
                | completed st1 ch =>
                  obtain ⟨hgi1, ⟨l1, hl1, hni1⟩, _⟩ := hdla.2 _ _ rfl
                  have hbase1 : BuildPres ia st st1 := hdp.2 _ _ rfl
                  obtain ⟨q1, hq1, _⟩ := hbase1.2.2.2.1 ix p hp
                  simp only [hq1] at h
                  have hq2 : getPkg (setPkg st1 ix (refreshInstallationStatus st1.installedDB q1)) ix
                      = some (refreshInstallationStatus st1.installedDB q1) :=
                    getPkg_setPkg_self st1 ix _ q1 hq1
                  simp only [hq2] at h
                  have hgi2 : getPkg (setPkg st1 ix (refreshInstallationStatus st1.installedDB q1)) i
                      = getPkg st i :=
                    (getPkg_setPkg_other st1 ix i _ hixi).trans hgi1
                  have hl2 : (setPkg st1 ix (refreshInstallationStatus st1.installedDB q1)).builtLog
                      = st.builtLog ++ l1 := hl1
                  have hstep3 : ∀ st3 : State,
                      (st3 = buildAndRecord w (setPkg st1 ix (refreshInstallationStatus st1.installedDB q1)) ix ∨
                       st3 = setBuildStatus (setPkg st1 ix (refreshInstallationStatus st1.installedDB q1)) ix 2 ∨
                       st3 = setPkg st1 ix (refreshInstallationStatus st1.installedDB q1)) →
                      getPkg st3 i = getPkg st i ∧
                        ∃ l, st3.builtLog = st.builtLog ++ l ∧ i ∉ l := by
                    intro st3 hst3
                    rcases hst3 with hst3 | hst3 | hst3
                    · subst hst3
                      obtain ⟨_, _, blog, bother, _⟩ := buildAndRecord_effect_general w _ ix _ hq2
                      refine ⟨(bother i (fun he => hixi he.symm)).trans hgi2,
                        ⟨l1 ++ [ix], ?_, notMem_append hni1
                          (fun hm => hixi (List.mem_singleton.mp hm).symm)⟩⟩
                      rw [blog, hl2, List.append_assoc]
                    · subst hst3
                      obtain ⟨slog, _, sother⟩ := setBuildStatus_frame
                        (setPkg st1 ix (refreshInstallationStatus st1.installedDB q1)) ix 2
                      refine ⟨(sother i (fun he => hixi he.symm)).trans hgi2, ⟨l1, ?_, hni1⟩⟩
                      rw [slog, hl2]
                    · subst hst3
                      exact ⟨hgi2, ⟨l1, hl2, hni1⟩⟩
                  have hfin : ∀ st3 : State,
                      (getPkg st3 i = getPkg st i ∧
                        ∃ l, st3.builtLog = st.builtLog ++ l ∧ i ∉ l) →
                      some (if ia then sourceInstall w st3 ix else st3) = some st' →
                      getPkg st' i = getPkg st i ∧
                        ∃ l, st'.builtLog = st.builtLog ++ l ∧ i ∉ l := by
                    intro st3 ⟨hgi3, l3, hl3, hni3⟩ heq
                    cases heq
                    cases ia with
                    | false => exact ⟨hgi3, ⟨l3, hl3, hni3⟩⟩
                    | true =>
                      obtain ⟨iflog, ifother⟩ := sourceInstall_frame w st3 ix
                      refine ⟨(ifother i (fun he => hixi he.symm)).trans hgi3, ⟨l3, ?_, hni3⟩⟩
                      show (sourceInstall w st3 ix).builtLog = st.builtLog ++ l3
                      rw [iflog, hl3]
                  by_cases hch : ch = true
                  · rw [hch] at h
                    simp only [if_pos rfl] at h
                    exact hfin _ (hstep3 _ (Or.inl rfl)) h
                  · have hch' : ch = false := by
                      cases ch
                      · rfl
                      · exact absurd rfl hch
                    rw [hch'] at h
                    simp only [Bool.false_eq_true, if_false] at h
                    by_cases hrb0 : rb = 0
                    · rw [hrb0] at h
                      simp only [if_pos rfl] at h
                      by_cases hcav : (refreshInstallationStatus st1.installedDB q1).cache_available < 2
                      · rw [if_pos hcav] at h
                        exact hfin _ (hstep3 _ (Or.inl rfl)) h
                      · rw [if_neg hcav] at h
                        exact hfin _ (hstep3 _ (Or.inr (Or.inl rfl))) h
                    · rw [if_neg hrb0] at h
                      by_cases hrb1 : rb = 1
                      · rw [hrb1] at h
                        simp only [if_pos rfl] at h
                        by_cases hcav : (((refreshInstallationStatus st1.installedDB q1).cache_available < 2 ||
                            (refreshInstallationStatus st1.installedDB q1).explicit_build : Bool) = true)
                        · rw [if_pos hcav] at h
                          exact hfin _ (hstep3 _ (Or.inl rfl)) h
                        · rw [if_neg hcav] at h
                          exact hfin _ (hstep3 _ (Or.inr (Or.inl rfl))) h
                      · rw [if_neg hrb1] at h
                        by_cases hrb2 : rb = 2
                        · rw [hrb2] at h
                          simp only [if_pos rfl] at h
                          exact hfin _ (hstep3 _ (Or.inl rfl)) h
                        · rw [if_neg hrb2] at h
                          exact hfin _ (hstep3 _ (Or.inr (Or.inr rfl))) h

/-- C4: a source node whose dependency loop aborted because a dependency
carried an error after its own recursive visit (the `.returned` case of
`depLoop`, the exact abort condition of run.py lines 745-749) ends the
call with `build_status = 4` (dependency-failed), and `makepkg` is never
invoked for it during the call — the non-invocation under the side
condition that the dependency names form an avoid-closed set for the node,
which holds for every acyclic dependency graph (a cyclic one never reaches
the decision at all: the recursion diverges). -/
theorem c4_dependency_error_aborts
    (w : World) (rb : Nat) (ia : Bool) (fuel : Nat) (n : String) (st st' : State)
    (i : Nat) (p : Package) (c : List String) (st1 : State)
    (hlook : lookupAssoc st.registry n = some i)
    (hp : getPkg st i = some p)
    (herr : p.error_info.isSome = false)
    (hkind : p.kind = PkgKind.source) (hbs : p.build_status = 0)
    (hdl : depLoop (buildPackageRecursive w rb ia fuel) i
      (p.dependencies ++ p.make_dependencies) false st =
        some (DepLoopResult.returned st1))
    (hsub : ∀ d ∈ p.dependencies ++ p.make_dependencies, d ∈ c)
    (hav : AvoidClosed st c i)
    (hrun : buildPackageRecursive w rb ia (fuel + 1) n st = some st') :
    (∃ q, getPkg st' i = some q ∧ q.build_status = 4) ∧
    ∃ l, st'.builtLog = st.builtLog ++ l ∧ i ∉ l := by
  rw [buildPackageRecursive_succ, buildVisit] at hrun
  simp only [hlook, hp] at hrun
  rw [if_neg (fun hc => Bool.noConfusion ((herr ▸ hc : (false : Bool) = true)))] at hrun
  rw [if_neg (show ¬((p.kind = PkgKind.source && p.build_status ≠ 0 : Bool) = true) by
    simp [hkind, hbs])] at hrun
  rw [if_neg (show ¬ p.kind = PkgKind.pacman by rw [hkind]; intro hc; exact PkgKind.noConfusion hc)] at hrun
  simp only [hdl] at hrun
  have hst' : st' = st1 := (Option.some.inj hrun).symm
  obtain ⟨stm, hgi, ⟨l, hl, hni⟩, _, heq⟩ :=
    (depLoop_avoid ia (buildPackageRecursive w rb ia fuel)
      (fun nn s s' hh => buildRec_pres w rb ia fuel nn s s' hh)
      (fun nn s s' c' i' hav' hn' hh => buildRec_avoid w rb ia fuel nn s s' c' i' hav' hn' hh)
      c i i (p.dependencies ++ p.make_dependencies) false st _ hsub hav hdl).1 st1 rfl
  have hpm : getPkg stm i = some p := hgi.trans hp
  obtain ⟨_, _, slog, _, sself⟩ := setBuildStatus_effect stm i 4 p hpm
  subst hst'
  rw [heq]
  exact ⟨⟨{ p with build_status := 4 }, sself, rfl⟩, ⟨l, by rw [slog, hl], hni⟩⟩

/-- Witness for `c4_dependency_error_aborts` in the two-node scenario where
the dependency `d` of `x` carries a resolution error. -/
theorem c4_dependency_error_aborts_witness :
    (∃ q, getPkg depErrFinal 0 = some q ∧ q.build_status = 4) ∧
    ∃ l, depErrFinal.builtLog = depErrState.builtLog ++ l ∧ 0 ∉ l :=
  c4_dependency_error_aborts emptyWorld 0 false 1 "x" depErrState depErrFinal 0
    { kind := .source, name := "x", dependencies := ["d"] } ["d"]
    (setBuildStatus depErrState 0 4)
    (by decide) (by decide) (by decide) (by decide) (by decide) (by decide)
    (by decide)
    (by
      constructor
      · intro x hx j q hlk hq d hd
        have hx' : x = "d" := List.mem_singleton.mp hx
        subst hx'
        have hj : (1 : Nat) = j := Option.some.inj hlk
        subst hj
        have hq' : ({ kind := .source, name := "d", error_info := some "resolution failed" } : Package) = q := Option.some.inj hq
        subst hq'
        simp at hd
      · intro x hx
        have hx' : x = "d" := List.mem_singleton.mp hx
        subst hx'
        intro hc
        exact absurd (Option.some.inj hc) (by decide))
    (by decide)

/-- C2 (amended): when the dependency loop of an unprocessed source node
completes with the dependency-changed flag set — the flag the loop turns
on exactly when a just-visited dependency resolves to a source node with
`build_status = 1`, i.e. one that was actually rebuilt — the node is built
unconditionally: `makepkg` runs for it and its `build_status` becomes 1 or
3, for every rebuild policy and in particular with a current cached
artifact under policy 0.  The original claim fails when a later dependency
carries an error, which aborts the loop before the decision (see the
counterexample). -/
theorem c2_force_rebuild_amended
    (w : World) (rb : Nat) (ia : Bool) (fuel : Nat) (n : String) (st st' : State)
    (i : Nat) (p : Package) (st1 : State)
    (hlook : lookupAssoc st.registry n = some i)
    (hp : getPkg st i = some p)
    (herr : p.error_info.isSome = false)
    (hkind : p.kind = PkgKind.source) (hbs : p.build_status = 0)
    (hdl : depLoop (buildPackageRecursive w rb ia fuel) i
      (p.dependencies ++ p.make_dependencies) false st =
        some (DepLoopResult.completed st1 true))
    (hrun : buildPackageRecursive w rb ia (fuel + 1) n st = some st') :
    (∃ q, getPkg st' i = some q ∧ (q.build_status = 1 ∨ q.build_status = 3)) ∧
    ∃ l, st'.builtLog = st.builtLog ++ l ∧ i ∈ l := by
  rw [buildPackageRecursive_succ, buildVisit] at hrun
  simp only [hlook, hp] at hrun
  rw [if_neg (fun hc => Bool.noConfusion ((herr ▸ hc : (false : Bool) = true)))] at hrun
  rw [if_neg (show ¬((p.kind = PkgKind.source && p.build_status ≠ 0 : Bool) = true) by
    simp [hkind, hbs])] at hrun
  rw [if_neg (show ¬ p.kind = PkgKind.pacman by rw [hkind]; intro hc; exact PkgKind.noConfusion hc)] at hrun
  simp only [hdl] at hrun
  have hbase1 : BuildPres ia st st1 :=
    (depLoop_pres ia (buildPackageRecursive w rb ia fuel)
      (fun nn s s' hh => buildRec_pres w rb ia fuel nn s s' hh) i
      (p.dependencies ++ p.make_dependencies) false st _ hdl).2 st1 true rfl
  obtain ⟨l1, hl1⟩ := hbase1.2.2.1
  obtain ⟨q1, hq1, _⟩ := hbase1.2.2.2.1 i p hp
  simp only [hq1] at hrun
  have hq2 : getPkg (setPkg st1 i (refreshInstallationStatus st1.installedDB q1)) i
      = some (refreshInstallationStatus st1.installedDB q1) :=
    getPkg_setPkg_self st1 i _ q1 hq1
  simp only [hq2, if_pos rfl] at hrun
  obtain ⟨_, _, blog, _, q3, hq3, _, _, _, _, _, _, _, _, hbs3, _, _⟩ :=
    buildAndRecord_effect_general w (setPkg st1 i (refreshInstallationStatus st1.installedDB q1)) i
      (refreshInstallationStatus st1.installedDB q1) hq2
  have hl2 : (setPkg st1 i (refreshInstallationStatus st1.installedDB q1)).builtLog
      = st.builtLog ++ l1 := hl1
  cases hia : ia with
  | false =>
    rw [hia] at hrun
    simp only [Bool.false_eq_true, if_false] at hrun
    have hst' : st' = buildAndRecord w
        (setPkg st1 i (refreshInstallationStatus st1.installedDB q1)) i :=
      (Option.some.inj hrun).symm
    subst hst'
    exact ⟨⟨q3, hq3, hbs3⟩,
      ⟨l1 ++ [i], by rw [blog, hl2, List.append_assoc],
        List.mem_append.mpr (Or.inr (List.mem_singleton.mpr rfl))⟩⟩
  | true =>
    rw [hia] at hrun
    simp only [if_pos rfl] at hrun
    have hst' : st' = sourceInstall w (buildAndRecord w
        (setPkg st1 i (refreshInstallationStatus st1.installedDB q1)) i) i :=
      (Option.some.inj hrun).symm
    subst hst'
    obtain ⟨_, _, ilog, _, q4, hq4, _, _, _, _, _, _, _, _, ibs, _, _⟩ :=
      sourceInstall_effect w (buildAndRecord w
        (setPkg st1 i (refreshInstallationStatus st1.installedDB q1)) i) i q3 hq3
    refine ⟨⟨q4, hq4, by rw [ibs]; exact hbs3⟩,
      ⟨l1 ++ [i], by rw [ilog, blog, hl2, List.append_assoc],
        List.mem_append.mpr (Or.inr (List.mem_singleton.mpr rfl))⟩⟩

/-- Witness for `c2_force_rebuild_amended`: `x` has a current cached
artifact under policy 0, its dependency `d` is rebuilt, and `x` is built
anyway. -/
theorem c2_force_rebuild_witness :
    (∃ q, getPkg forceFinal 0 = some q ∧ (q.build_status = 1 ∨ q.build_status = 3)) ∧
    ∃ l, forceFinal.builtLog = forceState.builtLog ++ l ∧ 0 ∈ l :=
  c2_force_rebuild_amended emptyWorld 0 false 1 "x" forceState forceFinal 0
    { kind := .source, name := "x", dependencies := ["d"], cache_available := 2 }
    forceMid
    (by decide) (by decide) (by decide) (by decide) (by decide) (by decide)
    (by decide)

/-- C6 (amended): within one orchestration call, a nonzero `build_status`
is never overwritten (so it transitions at most once, from 0 to a terminal
value), an errored node is left entirely untouched, a node with negative
`installation_status` (install-failed) keeps its whole state under the
error invariant, and a settled node — in particular a pacman node with
`installation_status` 1 or 3 — is left untouched.  The original claim
fails for `installation_status = 2` (different version installed): the
install step of the same run overwrites it with 3 (see the
counterexample). -/
theorem c6_status_monotonic_amended
    (w : World) (rb : Nat) (ia : Bool) (fuel : Nat) (n : String) (st st' : State)
    (hrun : buildPackageRecursive w rb ia fuel n st = some st')
    (hinv : ErrInv st) :
    ∀ j p, getPkg st j = some p →
      (p.build_status ≠ 0 → ∃ q, getPkg st' j = some q ∧ q.build_status = p.build_status) ∧
      (p.error_info.isSome = true → getPkg st' j = some p) ∧
      (p.installation_status < 0 → getPkg st' j = some p) ∧
      (Settled ia p → getPkg st' j = some p) := by
  have hbp := buildRec_pres w rb ia fuel n st st' hrun
  intro j p hpj
  obtain ⟨_, _, _, hev, hsettle, _⟩ := hbp
  obtain ⟨q, hq, _, _, _, _, _, _, _, _, herrq, hbsq⟩ := hev j p hpj
  refine ⟨fun hb => ⟨q, hq, hbsq hb⟩, fun he => ?_, fun hneg => ?_,
    fun hs => hsettle j p hpj hs⟩
  · rw [hq, herrq he]
  · have he : p.error_info.isSome = true := hinv p (List.get?_mem hpj) hneg
    rw [hq, herrq he]

/-- Witness for `c6_status_monotonic_amended` at the settled pacman node
`d` of the three-node scenario. -/
theorem c6_status_monotonic_witness :
    ErrInv monoState ∧
    ((monoPacman.build_status ≠ 0 →
        ∃ q, getPkg monoFinal 1 = some q ∧ q.build_status = monoPacman.build_status) ∧
     (monoPacman.error_info.isSome = true → getPkg monoFinal 1 = some monoPacman) ∧
     (monoPacman.installation_status < 0 → getPkg monoFinal 1 = some monoPacman) ∧
     (Settled true monoPacman → getPkg monoFinal 1 = some monoPacman)) := by
  have hinv : ErrInv monoState := by
    intro p hp hneg
    simp only [monoState, monoPacman, List.mem_cons, List.not_mem_nil, or_false] at hp
    rcases hp with rfl | rfl | rfl <;> simp at hneg
  exact ⟨hinv,
    c6_status_monotonic_amended emptyWorld 0 true 2 "x" monoState monoFinal
      (by decide) hinv 1 monoPacman (by decide)⟩

/-- An orchestration call at a node carrying a recorded error — whichever
of the error kinds put it there — returns normally with the whole state
unchanged: the error is data on the node, not an exception. -/
theorem buildRec_errored_noop (w : World) (rb : Nat) (ia : Bool) (fuel : Nat)
    (n : String) (st : State) (i : Nat) (p : Package)
    (hlook : lookupAssoc st.registry n = some i)
    (hp : getPkg st i = some p)
    (herr : p.error_info.isSome = true) :
    buildPackageRecursive w rb ia (fuel + 1) n st = some st := by
  rw [buildPackageRecursive_succ, buildVisit]
  simp only [hlook, hp]
  rw [if_pos herr]

/-- A node that is errored or settled is left exactly in place by any
successful orchestration call, whatever happens anywhere else inside that
call's subtree. -/
theorem buildRec_frozen (w : World) (rb : Nat) (ia : Bool) (fuel : Nat)
    (n : String) (st st' : State)
    (hrun : buildPackageRecursive w rb ia fuel n st = some st') :
    ∀ j p, getPkg st j = some p →
      (p.error_info.isSome = true ∨ Settled ia p) →
      getPkg st' j = some p := by
  have hbp := buildRec_pres w rb ia fuel n st st' hrun
  intro j p hpj hfr
  rcases hfr with herr | hs
  · obtain ⟨q, hq, hev⟩ := hbp.2.2.2.1 j p hpj
    rw [hq, hev.2.2.2.2.2.2.2.2.1 herr]
  · exact hbp.2.2.2.2.1 j p hpj hs

/-- Resolution of a name that exists nowhere (not official, not a local
source, not in the AUR) returns normally: the package-not-found error is
recorded on a node registered under the requested name. -/
theorem resolveAur_notfound (w : World) (removeDl : Bool) (fuel : Nat)
    (name : String) (e m : Bool) (st : State)
    (hmemo : lookupAssoc st.registry name = none)
    (hoff : w.official name = none)
    (hloc : name ∉ w.localSources)
    (haur : w.aurRecipe name = none) :
    ∃ st', getPackageRecursive w removeDl (fuel + 1) name e m st = some st' ∧
      lookupAssoc st'.registry name = some st.store.length ∧
      ∃ q, getPkg st' st.store.length = some q ∧ q.error_info.isSome = true := by
  have hname : (mkPackageSource w st.installedDB SourceOrigin.aur name removeDl).name = name := by
    simp [mkPackageSource, haur, setError]
  have herraur : ({ mkPackageSource w st.installedDB SourceOrigin.aur name removeDl with
      explicit_build := e } : Package).error_info.isSome = true := by
    simp [mkPackageSource, haur, setError]
  have hparsed : lookupAssoc st.registry
      ({ mkPackageSource w st.installedDB SourceOrigin.aur name removeDl with
        explicit_build := e } : Package).name = none := by
    show lookupAssoc st.registry
      (mkPackageSource w st.installedDB SourceOrigin.aur name removeDl).name = none
    rw [hname]
    exact hmemo
  have hpres := registerSource_pres st name
    { mkPackageSource w st.installedDB SourceOrigin.aur name removeDl with
      explicit_build := e } hmemo hparsed
  refine ⟨_, ?_, hpres.2.1, _, hpres.2.2.2, herraur⟩
  rw [getPackageRecursive_succ, resolveVisit]
  rw [if_neg (by simp [hmemo])]
  rw [if_neg (by simp [hoff])]
  rw [if_neg hloc]
  rw [if_neg (show ¬(((lookupAssoc st.registry
    (mkPackageSource w st.installedDB SourceOrigin.aur name removeDl).name).isSome) = true) by
    rw [hname, hmemo]
    simp)]
  rw [if_pos herraur]

/-- Progress: under the real rebuild policies (0, 1 and 2) and the error
invariant, the node a successful orchestration call was asked to process
ends the call either with a recorded error or settled. -/
theorem buildRec_progress (w : World) (rb : Nat) (ia : Bool) (fuel : Nat)
    (n : String) (st st' : State) (i : Nat) (q : Package)
    (hrb : rb ≤ 2) (hinv : ErrInv st)
    (hrun : buildPackageRecursive w rb ia (fuel + 1) n st = some st')
    (hlook : lookupAssoc st.registry n = some i)
    (hq : getPkg st' i = some q) :
    q.error_info.isSome = true ∨ Settled ia q := by
  rw [buildPackageRecursive_succ, buildVisit] at hrun
  simp only [hlook] at hrun
  cases hp : getPkg st i with
  | none =>
    simp only [hp] at hrun
    exact Option.noConfusion hrun
  | some p =>
    simp only [hp] at hrun
    by_cases herr : p.error_info.isSome = true
    · rw [if_pos herr] at hrun
      have hst : st' = st := (Option.some.inj hrun).symm
      subst hst
      rw [hp] at hq
      cases hq
      exact Or.inl herr
    · have herrn : p.error_info = none := by
        cases he : p.error_info
        · rfl
        · exact absurd (by rw [he]; rfl) herr
      rw [if_neg herr] at hrun
      by_cases hsb : (p.kind = PkgKind.source && p.build_status ≠ 0 : Bool) = true
      · rw [if_pos hsb] at hrun
        have hst : st' = st := (Option.some.inj hrun).symm
        subst hst
        rw [hp] at hq
        cases hq
        simp only [Bool.and_eq_true, decide_eq_true_eq] at hsb
        refine Or.inr ⟨herrn, fun _ => hsb.2, fun hk => ?_⟩
        rw [hsb.1] at hk
        exact PkgKind.noConfusion hk
      · rw [if_neg hsb] at hrun
        by_cases hpac : p.kind = PkgKind.pacman
        · rw [if_pos hpac] at hrun
          by_cases hterm : (p.installation_status < 0 || p.installation_status = 3 : Bool) = true
          · rw [if_pos hterm] at hrun
            have hst : st' = st := (Option.some.inj hrun).symm
            subst hst
            rw [hp] at hq
            cases hq
            rcases Bool.or_eq_true_iff.mp hterm with hc | hc
            · exact Or.inl (errInv_of_getPkg hinv hp (of_decide_eq_true hc))
            · exact Or.inr ⟨herrn, fun hk => PkgKind.noConfusion (hk.symm.trans hpac),
                fun _ => Or.inr (Or.inl (of_decide_eq_true hc))⟩
          · have hni : ¬ p.installation_status < 0 := fun hc => hterm (by simp [hc])
            have hn3 : ¬ p.installation_status = 3 := fun hc => hterm (by simp [hc])
            rw [if_neg hterm] at hrun
            by_cases hflag : (p.is_make_dependency || ia) = true
            · rw [if_pos hflag] at hrun
              have hst : st' = pacmanInstall w st i := (Option.some.inj hrun).symm
              subst hst
              by_cases hinst1 : p.installation_status = 1
              · rw [pacmanInstall_skip w st i p hp (Or.inl hinst1), hp] at hq
                cases hq
                exact Or.inr ⟨herrn, fun hk => PkgKind.noConfusion (hk.symm.trans hpac),
                  fun _ => Or.inl hinst1⟩
              · obtain ⟨_, _, _, _, ecase⟩ :=
                  pacmanInstall_effect w st i p hp (fun hc => hc.elim hinst1 hn3)
                rcases ecase with ⟨_, hqi⟩ | ⟨_, hqi⟩
                · rw [hqi] at hq
                  cases hq
                  exact Or.inr ⟨herrn, fun hk => PkgKind.noConfusion (hk.symm.trans hpac),
                    fun _ => Or.inr (Or.inl rfl)⟩
                · rw [hqi] at hq
                  cases hq
                  exact Or.inl rfl
            · rw [if_neg hflag] at hrun
              have hst : st' = st := (Option.some.inj hrun).symm
              subst hst
              rw [hp] at hq
              cases hq
              have hmkia : q.is_make_dependency = false ∧ ia = false := by
                cases hm : q.is_make_dependency with
                | true => exact absurd (by simp [hm]) hflag
                | false =>
                  cases hia2 : ia with
                  | true => exact absurd (by simp [hia2]) hflag
                  | false => exact ⟨rfl, rfl⟩
              exact Or.inr ⟨herrn, fun hk => PkgKind.noConfusion (hk.symm.trans hpac),
                fun _ => Or.inr (Or.inr hmkia)⟩
        · rw [if_neg hpac] at hrun
          have hkind : p.kind = PkgKind.source := by
            cases hk : p.kind with
            | source => rfl
            | pacman => exact absurd hk hpac
          have hbs : p.build_status = 0 := by
            by_contra hc
            exact hsb (by simp [hkind, hc])
          cases hdl : depLoop (buildPackageRecursive w rb ia fuel) i
              (p.dependencies ++ p.make_dependencies) false st with
          | none =>
            simp only [hdl] at hrun
            exact Option.noConfusion hrun
          | some r =>
            simp only [hdl] at hrun
            have hdp := depLoop_pres ia (buildPackageRecursive w rb ia fuel)
              (fun nn s s' hh => buildRec_pres w rb ia fuel nn s s' hh) i
              (p.dependencies ++ p.make_dependencies) false st r hdl
            cases r with
            | returned st1 =>
              have hst : st' = st1 := (Option.some.inj hrun).symm
              subst hst
              obtain ⟨stm, hbasem, hst1⟩ := hdp.1 _ rfl
              obtain ⟨pm, hpm, hevm⟩ := hbasem.2.2.2.1 i p hp
              obtain ⟨_, _, _, _, sself⟩ := setBuildStatus_effect stm i 4 pm hpm
              rw [hst1, sself] at hq
              cases hq
              by_cases hpe : pm.error_info.isSome = true
              · exact Or.inl hpe
              · have hpen : pm.error_info = none := by
                  cases he : pm.error_info
                  · rfl
                  · exact absurd (by rw [he]; rfl) hpe
                refine Or.inr ⟨hpen, fun _ => (by decide : (4 : Nat) ≠ 0), fun hk => ?_⟩
                have hk' : pm.kind = PkgKind.pacman := hk
                rw [hevm.1, hkind] at hk'
                exact PkgKind.noConfusion hk'
            | completed st1 ch =>
              have hbase1 : BuildPres ia st st1 := hdp.2 _ _ rfl
              obtain ⟨q1, hq1, hev1⟩ := hbase1.2.2.2.1 i p hp
              simp only [hq1] at hrun
              have hq2 : getPkg (setPkg st1 i (refreshInstallationStatus st1.installedDB q1)) i
                  = some (refreshInstallationStatus st1.installedDB q1) :=
                getPkg_setPkg_self st1 i _ q1 hq1
              simp only [hq2] at hrun
              have hkind2 : (refreshInstallationStatus st1.installedDB q1).kind = PkgKind.source := by
                show q1.kind = PkgKind.source
                rw [hev1.1, hkind]
              have hstep3 : ∀ st3 : State,
                  (st3 = buildAndRecord w
                    (setPkg st1 i (refreshInstallationStatus st1.installedDB q1)) i ∨
                   st3 = setBuildStatus
                    (setPkg st1 i (refreshInstallationStatus st1.installedDB q1)) i 2) →
                  ∃ q3, getPkg st3 i = some q3 ∧ q3.kind = PkgKind.source ∧
                    q3.build_status ≠ 0 := by
                intro st3 hst3
                rcases hst3 with hst3 | hst3
                · subst hst3
                  obtain ⟨_, _, _, _, q3, hq3, b1, _, _, _, _, _, _, _, hbs3, _, _⟩ :=
                    buildAndRecord_effect_general w _ i _ hq2
                  refine ⟨q3, hq3, b1.trans hkind2, ?_⟩
                  rcases hbs3 with h3 | h3 <;> rw [h3] <;> decide
                · subst hst3
                  obtain ⟨_, _, _, _, sself⟩ := setBuildStatus_effect _ i 2 _ hq2
                  exact ⟨_, sself, hkind2, (by decide : (2 : Nat) ≠ 0)⟩
              have hfin : ∀ st3 : State,
                  (∃ q3, getPkg st3 i = some q3 ∧ q3.kind = PkgKind.source ∧
                    q3.build_status ≠ 0) →
                  some (if ia then sourceInstall w st3 i else st3) = some st' →
                  q.error_info.isSome = true ∨ Settled ia q := by
                intro st3 ⟨q3, hq3, hk3, hb3⟩ heq
                have hst : st' = if ia then sourceInstall w st3 i else st3 :=
                  (Option.some.inj heq).symm
                subst hst
                cases hia : ia with
                | false =>
                  rw [hia] at hq
                  have hq' : getPkg st3 i = some q := hq
                  rw [hq3] at hq'
                  cases hq'
                  by_cases hqe : q.error_info.isSome = true
                  · exact Or.inl hqe
                  · have hqen : q.error_info = none := by
                      cases he : q.error_info
                      · rfl
                      · exact absurd (by rw [he]; rfl) hqe
                    exact Or.inr ⟨hqen, fun _ => hb3,
                      fun hk => PkgKind.noConfusion (hk3.symm.trans hk)⟩
                | true =>
                  rw [hia] at hq
                  have hq' : getPkg (sourceInstall w st3 i) i = some q := hq
                  obtain ⟨_, _, _, _, q4, hq4, i1, _, _, _, _, _, _, _, ibs, _, _⟩ :=
                    sourceInstall_effect w st3 i q3 hq3
                  rw [hq4] at hq'
                  cases hq'
                  by_cases hqe : q.error_info.isSome = true
                  · exact Or.inl hqe
                  · have hqen : q.error_info = none := by
                      cases he : q.error_info
                      · rfl
                      · exact absurd (by rw [he]; rfl) hqe
                    refine Or.inr ⟨hqen, fun _ => ?_,
                      fun hk => PkgKind.noConfusion ((i1.trans hk3).symm.trans hk)⟩
                    rw [ibs]
                    exact hb3
              by_cases hch : ch = true
              · rw [hch] at hrun
                simp only [if_pos rfl] at hrun
                exact hfin _ (hstep3 _ (Or.inl rfl)) hrun
              · have hch' : ch = false := by
                  cases ch
                  · rfl
                  · exact absurd rfl hch
                rw [hch'] at hrun
                simp only [Bool.false_eq_true, if_false] at hrun
                by_cases hrb0 : rb = 0
                · rw [hrb0] at hrun
                  simp only [if_pos rfl] at hrun
                  by_cases hcav : (refreshInstallationStatus st1.installedDB q1).cache_available < 2
                  · rw [if_pos hcav] at hrun
                    exact hfin _ (hstep3 _ (Or.inl rfl)) hrun
                  · rw [if_neg hcav] at hrun
                    exact hfin _ (hstep3 _ (Or.inr rfl)) hrun
                · rw [if_neg hrb0] at hrun
                  by_cases hrb1 : rb = 1
                  · rw [hrb1] at hrun
                    simp only [if_pos rfl] at hrun
                    by_cases hcav : (((refreshInstallationStatus st1.installedDB q1).cache_available < 2 ||
                        (refreshInstallationStatus st1.installedDB q1).explicit_build : Bool) = true)
                    · rw [if_pos hcav] at hrun
                      exact hfin _ (hstep3 _ (Or.inl rfl)) hrun
                    · rw [if_neg hcav] at hrun
                      exact hfin _ (hstep3 _ (Or.inr rfl)) hrun
                  · rw [if_neg hrb1] at hrun
                    by_cases hrb2 : rb = 2
                    · rw [hrb2] at hrun
                      simp only [if_pos rfl] at hrun
                      exact hfin _ (hstep3 _ (Or.inl rfl)) hrun
                    · exfalso
                      omega

/-- C7: primary errors are data on nodes, never control flow, stated
universally over worlds, policies, flags, states and fuels.  (i) The
orchestration of a node carrying *any* recorded error — invalid source,
package not found, build failure and install failure alike — returns
normally with the state unchanged: no exception crosses the node
boundary.  (ii) Under the real rebuild policies and the error invariant,
every node a successful orchestration call processes ends it either with
a recorded error or settled.  (iii) An errored or settled node is left
exactly in place by *any* later orchestration call, whatever failures
occur anywhere inside that call's subtree — so one top-level target's
subtree failures cannot disturb another target's finished nodes.  (iv)
Resolution of a name that exists nowhere returns normally with the
package-not-found error recorded on a registered node.  (v) Concretely,
over all four success and failure combinations of two independent
targets, the whole run completes, each target's final node is identical
whatever happened to the other target, failures are recorded only on the
failing node, and one report per target is rendered with its own success
flag. -/
theorem c7_failure_isolation :
    (∀ (w : World) (rb : Nat) (ia : Bool) (fuel : Nat) (n : String) (st : State)
      (i : Nat) (p : Package),
      lookupAssoc st.registry n = some i → getPkg st i = some p →
      p.error_info.isSome = true →
      buildPackageRecursive w rb ia (fuel + 1) n st = some st) ∧
    (∀ (w : World) (rb : Nat) (ia : Bool) (fuel : Nat) (n : String) (st st' : State)
      (i : Nat) (q : Package),
      rb ≤ 2 → ErrInv st →
      buildPackageRecursive w rb ia (fuel + 1) n st = some st' →
      lookupAssoc st.registry n = some i → getPkg st' i = some q →
      q.error_info.isSome = true ∨ Settled ia q) ∧
    (∀ (w : World) (rb : Nat) (ia : Bool) (fuel : Nat) (n : String) (st st' : State),
      buildPackageRecursive w rb ia fuel n st = some st' →
      ∀ j p, getPkg st j = some p →
      (p.error_info.isSome = true ∨ Settled ia p) →
      getPkg st' j = some p) ∧
    (∀ (w : World) (removeDl : Bool) (fuel : Nat) (name : String) (e m : Bool) (st : State),
      lookupAssoc st.registry name = none →
      w.official name = none →
      name ∉ w.localSources →
      w.aurRecipe name = none →
      ∃ st', getPackageRecursive w removeDl (fuel + 1) name e m st = some st' ∧
        lookupAssoc st'.registry name = some st.store.length ∧
        ∃ q, getPkg st' st.store.length = some q ∧ q.error_info.isSome = true) ∧
    (∀ ok1 ok2 : Bool,
      (indepRun ok1 ok2).isSome = true ∧
      ((indepReport ok1 ok2).map List.length = some 2) ∧
      (nodeOf (indepRun ok1 ok2) "p2" = nodeOf (indepRun true ok2) "p2") ∧
      (nodeOf (indepRun ok1 ok2) "p1" = nodeOf (indepRun ok1 true) "p1") ∧
      ((nodeOf (indepRun false ok2) "p1").map fun p => p.error_info.isSome) = some true ∧
      ((nodeOf (indepRun true ok2) "p1").map fun p => p.error_info.isSome) = some false ∧
      ((indepReport ok1 ok2).map fun l => l.map Prod.fst) = some [ok1, ok2]) := by
  refine ⟨?_, ?_, ?_, ?_, ?_⟩
  · intro w rb ia fuel n st i p hlook hp herr
    exact buildRec_errored_noop w rb ia fuel n st i p hlook hp herr
  · intro w rb ia fuel n st st' i q hrb hinv hrun hlook hq
    exact buildRec_progress w rb ia fuel n st st' i q hrb hinv hrun hlook hq
  · intro w rb ia fuel n st st' hrun j p hpj hfr
    exact buildRec_frozen w rb ia fuel n st st' hrun j p hpj hfr
  · intro w removeDl fuel name e m st hmemo hoff hloc haur
    exact resolveAur_notfound w removeDl fuel name e m st hmemo hoff hloc haur
  · decide

/-- Witness for `c7_failure_isolation` at concrete inputs: the errored
node `d` of the dependency-error scenario, the processed target `x` and
the settled pacman node `d` of the three-node scenario, and the
nowhere-existing name `ghost`. -/
theorem c7_failure_isolation_witness :
    (buildPackageRecursive emptyWorld 0 false 1 "d" depErrState = some depErrState) ∧
    (((getPkg monoFinal 0).getD monoPacman).error_info.isSome = true ∨
      Settled true ((getPkg monoFinal 0).getD monoPacman)) ∧
    (getPkg monoFinal 1 = some monoPacman) ∧
    (∃ st', getPackageRecursive emptyWorld false 1 "ghost" true false {} = some st' ∧
      lookupAssoc st'.registry "ghost" = some 0 ∧
      ∃ q, getPkg st' 0 = some q ∧ q.error_info.isSome = true) := by
  have hinv : ErrInv monoState := by
    intro p hp hneg
    simp only [monoState, monoPacman, List.mem_cons, List.not_mem_nil, or_false] at hp
    rcases hp with rfl | rfl | rfl <;> simp at hneg
  refine ⟨?_, ?_, ?_, ?_⟩
  · exact c7_failure_isolation.1 emptyWorld 0 false 0 "d" depErrState 1
      { kind := .source, name := "d", error_info := some "resolution failed" }
      (by decide) (by decide) (by decide)
  · exact c7_failure_isolation.2.1 emptyWorld 0 true 1 "x" monoState monoFinal 0
      ((getPkg monoFinal 0).getD monoPacman) (by decide) hinv (by decide) (by decide) (by decide)
  · exact c7_failure_isolation.2.2.1 emptyWorld 0 true 2 "x" monoState monoFinal (by decide) 1
      monoPacman (by decide)
      (Or.inr ⟨rfl, fun h => absurd h (by decide), fun _ => Or.inr (Or.inl rfl)⟩)
  · exact c7_failure_isolation.2.2.2.1 emptyWorld false 0 "ghost" true false {}
      (by decide) (by decide) (by decide) (by decide)

end AurMakepkg
